import Mathlib

/-!
Verification of the segmented-reduction (scatter) engine and the
message-passing model of `src/sagemaker/code/inference.py`.

Tensors are embedded shallowly as a shape (list of extents) together with a
total multi-index access function into ℚ, plus a flag recording whether the
tensor is a floating-point tensor (`fl = true`) or an integer tensor
(`fl = false`).  Row-major data layout is irrelevant to every property
verified here, so access is by multi-index directly.  Fallible operations
return `Except String`.
-/

/-- A dense numeric buffer: a shape and a total access function.
`fl` records `Tensor.is_floating_point` of the torch tensor. -/
structure Tensor where
  shape : List Nat
  fl : Bool
  data : List Nat → ℚ

namespace Tensor

/-- Number of axes (`torch.Tensor.dim()`). -/
def rank (t : Tensor) : Nat := t.shape.length

/-- Number of elements (`torch.Tensor.numel()`). -/
def numel (t : Tensor) : Nat := t.shape.prod

/-- `unsqueeze(0)`: insert a leading singleton axis. -/
def unsq0 (t : Tensor) : Tensor :=
  { shape := 1 :: t.shape, fl := t.fl, data := fun p => t.data (p.drop 1) }

/-- `unsqueeze(-1)`: insert a trailing singleton axis. -/
def unsqLast (t : Tensor) : Tensor :=
  { shape := t.shape ++ [1], fl := t.fl, data := fun p => t.data (p.take t.shape.length) }

end Tensor

/-- Apply `unsqueeze(0)` `n` times. -/
def iterUnsq0 : Nat → Tensor → Tensor
  | 0, t => t
  | n + 1, t => iterUnsq0 n t.unsq0

/-- Apply `unsqueeze(-1)` `n` times. -/
def iterUnsqLast : Nat → Tensor → Tensor
  | 0, t => t
  | n + 1, t => iterUnsqLast n t.unsqLast

/-- All valid multi-indices of a shape, in lexicographic order. -/
def allIdx : List Nat → List (List Nat)
  | [] => [[]]
  | n :: s => (List.range n).flatMap (fun i => (allIdx s).map (fun p => i :: p))

/-- Materialize every element of a tensor (used for `index.max()`). -/
def Tensor.toList (t : Tensor) : List ℚ := (allIdx t.shape).map t.data

/-- `torch.Tensor.expand(s)`: align the tensor's axes with the trailing axes
of the target shape; every aligned axis must be a singleton or already match
the target extent, and a singleton axis is logically repeated (no copy).
Errors mirror torch's RuntimeError for incompatible expands. -/
def Tensor.expand (t : Tensor) (s : List Nat) : Except String Tensor :=
  if t.shape.length ≤ s.length ∧
      ∀ i ∈ List.range t.shape.length,
        t.shape.getD i 0 = 1 ∨ t.shape.getD i 0 = s.getD (s.length - t.shape.length + i) 0 then
    Except.ok
      { shape := s, fl := t.fl,
        data := fun p =>
          t.data ((List.range t.shape.length).map (fun i =>
            if t.shape.getD i 0 = 1 then 0 else p.getD (s.length - t.shape.length + i) 0)) }
  else Except.error "ShapeError: expanded size must match the existing size"

/-- `broadcast(src, other, dim)` from `inference.py` lines 22-31: resolve a
negative `dim` against `other`'s rank, front-pad a 1-D `src` with singleton
axes up to `dim`, end-pad with singleton axes until the ranks match, then
expand to `other`'s shape. -/
def broadcast (src other : Tensor) (dim : Int) : Except String Tensor :=
  let d : Int := if dim < 0 then (other.shape.length : Int) + dim else dim
  let s1 := if src.shape.length = 1 then iterUnsq0 d.toNat src else src
  let s2 := iterUnsqLast (other.shape.length - s1.shape.length) s1
  s2.expand other.shape

/-- A possibly negative Python axis resolved against a rank. -/
def pyDim (dim : Int) (r : Nat) : Int := if dim < 0 then dim + r else dim

/-- Resolve a possibly negative axis against a rank, failing like Python
list indexing / torch dim resolution when out of range. -/
def resolveDim (dim : Int) (r : Nat) : Except String Nat :=
  if 0 ≤ pyDim dim r ∧ pyDim dim r < r then Except.ok (pyDim dim r).toNat
  else Except.error "IndexError: dimension out of range"

/-- Maximum of a list of rationals (`none` on the empty list). -/
def qMax : List ℚ → Option ℚ
  | [] => none
  | a :: t => some (t.foldl max a)

/-- The output slot a source position `j` scatters into: its coordinate at
axis `d` replaced by the group id read from the (broadcast) index tensor. -/
def scatTarget (index : Tensor) (d : Nat) (j : List Nat) : List Nat :=
  j.set d (⌊index.data j⌋).toNat

/-- The bounds check `torch.Tensor.scatter_add_` performs on each consumed
group id: non-negative and below the output extent at the scatter axis. -/
def scatInBounds (index : Tensor) (sz : Nat) (j : List Nat) : Prop :=
  0 ≤ ⌊index.data j⌋ ∧ (⌊index.data j⌋).toNat < sz

instance (index : Tensor) (sz : Nat) (j : List Nat) :
    Decidable (scatInBounds index sz j) :=
  inferInstanceAs (Decidable (_ ∧ _))

/-- One step of the scatter traversal: check the group id of source
position `j`, failing with an IndexError when it is out of bounds,
otherwise combine the source element into the addressed slot. -/
def scatStep {σ : Type} (src index : Tensor) (d sz : Nat)
    (comb : σ → ℚ → Nat → σ) (st : List Nat → σ) (j : List Nat) :
    Except String (List Nat → σ) :=
  if scatInBounds index sz j then
    Except.ok (fun q =>
      if q = scatTarget index d j then comb (st q) (src.data j) (j.getD d 0) else st q)
  else Except.error "IndexError: scatter index out of bounds"

/-- Generic element-by-element scatter traversal shared by the reduction
kinds: walk every source position, mirroring the element loop of the torch
scatter kernels. -/
def scatFold {σ : Type} (src index : Tensor) (d sz : Nat)
    (comb : σ → ℚ → Nat → σ) (init : List Nat → σ) :
    Except String (List Nat → σ) :=
  (allIdx src.shape).foldlM (scatStep src index d sz comb) init

/-- `out.scatter_add_(d, index, src)` for an index tensor that has already
been broadcast to `src`'s shape: shape requirements of the torch op, then
element-wise accumulation into `out`. -/
def scatterAddInto (o index src : Tensor) (d : Nat) : Except String Tensor :=
  if index.shape = src.shape ∧ o.shape.length = src.shape.length ∧
      ∀ a ∈ List.range src.shape.length,
        a = d ∨ src.shape.getD a 0 ≤ o.shape.getD a 0 then
    (scatFold src index d (o.shape.getD d 0) (fun s v _ => s + v) o.data).map
      (fun st => { shape := o.shape, fl := o.fl, data := st })
  else Except.error "ShapeError: scatter shape mismatch"

/-- The extent the output gets at `dim` when `out is None`: `dim_size` if
supplied, else `0` for an empty (broadcast) index, else `int(index.max())+1`
(`inference.py` lines 38-45).  Returned as an `Int`; a negative value makes
`torch.zeros` fail. -/
def autoDimSize (index : Tensor) (dim_size : Option Nat) : Int :=
  match dim_size with
  | some n => (n : Int)
  | none =>
      if index.numel = 0 then 0
      else
        match qMax index.toList with
        | some m => ⌊m⌋ + 1
        | none => 0

/-- `scatter_sum` (`inference.py` lines 34-49): broadcast the index against
`src` along `dim`; if `out` is given, accumulate into it, otherwise build a
zero buffer whose extent at `dim` is `dim_size` / `0` / `max(index)+1` and
accumulate into that. -/
def scatter_sum (src idx : Tensor) (dim : Int) (out : Option Tensor)
    (dim_size : Option Nat) : Except String Tensor := do
  let index ← broadcast idx src dim
  match out with
  | some o => do
      let d ← resolveDim dim o.shape.length
      scatterAddInto o index src d
  | none => do
      let szI : Int := autoDimSize index dim_size
      let d ← resolveDim dim src.shape.length
      if 0 ≤ szI then
        scatterAddInto
          { shape := src.shape.set d szI.toNat, fl := src.fl, data := fun _ => 0 }
          index src d
      else Except.error "RuntimeError: negative dimension size"

/-- `scatter_add` (`inference.py` lines 52-55) is a direct alias. -/
def scatter_add (src idx : Tensor) (dim : Int) (out : Option Tensor)
    (dim_size : Option Nat) : Except String Tensor :=
  scatter_sum src idx dim out dim_size

/-- Modelled from the spec: `scatter_mul` delegates to
`torch.ops.torch_scatter.scatter_mul`, a native extension whose code is not
under `src/`; per spec section 4.2 it reduces with multiplication from the
identity element `1`, with the same shape and index-bounds behaviour as the
other kinds.  The `out` argument is not described by the spec and is left
unmodelled. -/
def scatter_mul (src idx : Tensor) (dim : Int) (out : Option Tensor)
    (dim_size : Option Nat) : Except String Tensor := do
  match out with
  | some _ => Except.error "unmodelled out argument"
  | none => do
      let index ← broadcast idx src dim
      let szI : Int := autoDimSize index dim_size
      let d ← resolveDim dim src.shape.length
      if 0 ≤ szI then
        (scatFold src index d szI.toNat (fun s v _ => s * v) (fun _ => 1)).map
          (fun st => { shape := src.shape.set d szI.toNat, fl := src.fl, data := st })
      else Except.error "RuntimeError: negative dimension size"

/-- `torch.ones(shape, dtype=...)`: an all-ones buffer. -/
def onesLike (shape : List Nat) (fl : Bool) : Tensor :=
  { shape := shape, fl := fl, data := fun _ => 1 }

/-- The axis `scatter_mean` reduces the all-ones count buffer along
(`inference.py` lines 70-74): the main axis resolved against the value
buffer's rank, clamped to the index buffer's last axis when the index has
fewer axes. -/
def meanIndexDim (srcRank idxRank : Nat) (dim : Int) : Int :=
  if (idxRank : Int) ≤ (if dim < 0 then dim + (srcRank : Int) else dim) then
    (idxRank : Int) - 1
  else (if dim < 0 then dim + (srcRank : Int) else dim)

/-- `scatter_mean` (`inference.py` lines 64-84): the per-group sum, the
per-group element count obtained by sum-reducing an all-ones buffer shaped
like the index, a clamp of zero counts to one, a broadcast of the counts to
the output shape, and a final division - true division when the output is
floating point, floor division otherwise. -/
def scatter_mean (src idx : Tensor) (dim : Int) (out : Option Tensor)
    (dim_size : Option Nat) : Except String Tensor := do
  let o ← scatter_sum src idx dim out dim_size
  let d2 ← resolveDim dim o.shape.length
  let dsz := o.shape.getD d2 0
  let count ← scatter_sum (onesLike idx.shape src.fl) idx
    (meanIndexDim src.shape.length idx.shape.length dim) none (some dsz)
  let count2 : Tensor :=
    { shape := count.shape, fl := count.fl,
      data := fun p => if count.data p < 1 then 1 else count.data p }
  let countB ← broadcast count2 o dim
  Except.ok
    { shape := o.shape, fl := o.fl,
      data := fun p =>
        if o.fl then o.data p / countB.data p
        else ((⌊o.data p / countB.data p⌋ : Int) : ℚ) }

/-- One compare-and-update step of an extremum reduction: keep the first
value seen for a slot, replace it whenever a strictly better value arrives,
remembering the source coordinate along the reduced axis. -/
def extStep (better : ℚ → ℚ → Bool) (s : Option (ℚ × Nat)) (v : ℚ) (k : Nat) :
    Option (ℚ × Nat) :=
  match s with
  | none => some (v, k)
  | some (w, a) => if better v w then some (v, k) else some (w, a)

/-- Modelled from the spec: `scatter_min`/`scatter_max` delegate to
`torch.ops.torch_scatter.scatter_min`/`scatter_max`, native kernels whose
code is not under `src/`.  Per spec sections 4.2 steps 2-3 and 5 they reduce
with min/max and "additionally return, per output slot, the source index
that produced the extremum (a companion integer buffer the same shape as
the output)".  Slots with no contributing element are tracked by a seen
flag (explicitly allowed by spec step 2) and materialized as `0`; the `out`
argument is not described by the spec and is left unmodelled. -/
def scatterExtreme (better : ℚ → ℚ → Bool) (src idx : Tensor) (dim : Int)
    (out : Option Tensor) (dim_size : Option Nat) :
    Except String (Tensor × Tensor) := do
  match out with
  | some _ => Except.error "unmodelled out argument"
  | none => do
      let index ← broadcast idx src dim
      let szI : Int := autoDimSize index dim_size
      let d ← resolveDim dim src.shape.length
      if 0 ≤ szI then do
        let st ← scatFold src index d szI.toNat (extStep better) (fun _ => none)
        Except.ok
          ({ shape := src.shape.set d szI.toNat, fl := src.fl,
             data := fun p => match st p with | some x => x.1 | none => 0 },
           { shape := src.shape.set d szI.toNat, fl := false,
             data := fun p => match st p with | some x => (x.2 : ℚ) | none => 0 })
      else Except.error "RuntimeError: negative dimension size"

/-- `scatter_min` (`inference.py` lines 87-91), modelled as above. -/
def scatter_min (src idx : Tensor) (dim : Int) (out : Option Tensor)
    (dim_size : Option Nat) : Except String (Tensor × Tensor) :=
  scatterExtreme (fun a b => decide (a < b)) src idx dim out dim_size

/-- `scatter_max` (`inference.py` lines 94-98), modelled as above. -/
def scatter_max (src idx : Tensor) (dim : Int) (out : Option Tensor)
    (dim_size : Option Nat) : Except String (Tensor × Tensor) :=
  scatterExtreme (fun a b => decide (b < a)) src idx dim out dim_size

/-- The dispatcher `scatter` (`inference.py` lines 177-188): `sum`/`add` go
to `scatter_sum`, `mul`/`mean`/`min`/`max` to their reductions (`min`/`max`
keeping only the value buffer), anything else raises `ValueError`. -/
def scatter (src idx : Tensor) (dim : Int) (out : Option Tensor)
    (dim_size : Option Nat) (reduce : String) : Except String Tensor :=
  if reduce = "sum" ∨ reduce = "add" then scatter_sum src idx dim out dim_size
  else if reduce = "mul" then scatter_mul src idx dim out dim_size
  else if reduce = "mean" then scatter_mean src idx dim out dim_size
  else if reduce = "min" then (scatter_min src idx dim out dim_size).map Prod.fst
  else if reduce = "max" then (scatter_max src idx dim out dim_size).map Prod.fst
  else Except.error "ValueError"

/-- A `torch.nn.Linear(win, wout)` with its weight matrix and bias vector.
Applied to a rank-2 input `(n, win)` it yields `(n, wout)`; the embedding
restricts torch's general leading-batch broadcasting to the rank-2 case,
which is the only one the model exercises. -/
structure LinearM where
  win : Nat
  wout : Nat
  w : Nat → Nat → ℚ
  b : Nat → ℚ

/-- Apply a linear layer to a rank-2 tensor. -/
def LinearM.apply (l : LinearM) (x : Tensor) : Except String Tensor :=
  match x.shape with
  | [n, d] =>
      if d = l.win then
        Except.ok
          { shape := [n, l.wout], fl := x.fl,
            data := fun p =>
              (∑ i ∈ Finset.range l.win, l.w (p.getD 1 0) i * x.data [p.getD 0 0, i]) +
                l.b (p.getD 1 0) }
      else Except.error "ShapeError: linear input width mismatch"
  | _ => Except.error "ShapeError: linear expects a rank-2 input"

/-- Elementwise `relu`. -/
def relu (t : Tensor) : Tensor :=
  { shape := t.shape, fl := t.fl, data := fun p => max 0 (t.data p) }

/-- `torch.Tensor.squeeze(-1)`: drop the trailing axis iff it is a
singleton, otherwise return the tensor unchanged. -/
def squeezeLast (t : Tensor) : Tensor :=
  if t.shape.getLast? = some 1 then
    { shape := t.shape.dropLast, fl := t.fl, data := fun p => t.data (p ++ [0]) }
  else t

/-- A linear layer with all-zero parameters, standing in for torch's random
initialization, whose sampled values are irrelevant to every property
verified here. -/
def zeroLinear (win wout : Nat) : LinearM :=
  { win := win, wout := wout, w := fun _ _ => 0, b := fun _ => 0 }

/-- The reduction kinds the `scatter` dispatcher (`inference.py` lines
177-188) recognizes. -/
def recognizedReduce (r : String) : Bool :=
  r = "sum" || r = "add" || r = "mul" || r = "mean" || r = "min" || r = "max"

/-- State of one `MPNNLayer`: the two-stage message MLP, the two-stage
update MLP, and the configured aggregation kind. -/
structure MPNNLayerSt where
  emb_dim : Nat
  aggr : String
  mlp_msg1 : LinearM
  mlp_msg2 : LinearM
  mlp_upd1 : LinearM
  mlp_upd2 : LinearM

/-- `MPNNLayer.__init__` (`inference.py` lines 195-221).  The constructor
passes `aggr` to `MessagePassing.__init__`; that base class lives in
`torch_geometric`, not under `src/`, so its validation is modelled from the
spec: an unrecognized reduction kind is "propagated at construction time,
not at call time" (spec section 7, ConfigError), the recognized kinds being
those of the `scatter` dispatcher.  The MLP weights stand in as zeros for
torch's random initialization. -/
def MPNNLayer_init (emb_dim edge_dim : Nat) (aggr : String) :
    Except String MPNNLayerSt :=
  if recognizedReduce aggr then
    Except.ok
      { emb_dim := emb_dim, aggr := aggr,
        mlp_msg1 := zeroLinear (2 * emb_dim + edge_dim) emb_dim,
        mlp_msg2 := zeroLinear emb_dim emb_dim,
        mlp_upd1 := zeroLinear (2 * emb_dim) emb_dim,
        mlp_upd2 := zeroLinear emb_dim emb_dim }
  else Except.error "ConfigError: unrecognized aggregation"

/-- Concatenate two rank-2 tensors along the feature (last) axis, failing
like `torch.cat` when the row counts disagree. -/
def catLast2 (a c : Tensor) : Except String Tensor :=
  match a.shape, c.shape with
  | [n, da], [m, dc] =>
      if n = m then
        Except.ok
          { shape := [n, da + dc], fl := a.fl,
            data := fun p =>
              if p.getD 1 0 < da then a.data p
              else c.data [p.getD 0 0, p.getD 1 0 - da] }
      else Except.error "ShapeError: cat row count mismatch"
  | _, _ => Except.error "ShapeError: cat expects rank-2 inputs"

/-- Two-stage MLP `Sequential(Linear, ReLU, Linear, ReLU)`. -/
def mlp2 (l1 l2 : LinearM) (x : Tensor) : Except String Tensor := do
  let h ← l1.apply x
  let h2 ← l2.apply (relu h)
  Except.ok (relu h2)

/-- `MPNNLayer.forward` (`inference.py` lines 223-275).  The call goes
through `MessagePassing.propagate`, which lives in `torch_geometric`, not
under `src/`; its glue is modelled from spec section 4.3: gather the
destination and source endpoint features of every edge (`edge_index` row 0
holding sources, row 1 destinations), concatenate `[h_i, h_j, edge_attr]`
and apply the message MLP, segment-reduce the messages by destination along
the node axis with the layer's reduction kind, then concatenate each node's
prior features with its aggregate and apply the update MLP.  Out-of-range
node ids fail with an IndexError as the spec requires. -/
def MPNNLayer_forward (l : MPNNLayerSt) (ei ea h : Tensor) :
    Except String Tensor :=
  match h.shape with
  | [n, dh] =>
      let e := ei.shape.getD 1 0
      if ∀ k ∈ List.range e,
          (0 ≤ ⌊ei.data [0, k]⌋ ∧ ⌊ei.data [0, k]⌋ < (n : Int)) ∧
          (0 ≤ ⌊ei.data [1, k]⌋ ∧ ⌊ei.data [1, k]⌋ < (n : Int)) then do
        let hi : Tensor :=
          { shape := [e, dh], fl := h.fl,
            data := fun p => h.data [(⌊ei.data [1, p.getD 0 0]⌋).toNat, p.getD 1 0] }
        let hj : Tensor :=
          { shape := [e, dh], fl := h.fl,
            data := fun p => h.data [(⌊ei.data [0, p.getD 0 0]⌋).toNat, p.getD 1 0] }
        let pairs ← catLast2 hi hj
        let stacked ← catLast2 pairs ea
        let msg ← mlp2 l.mlp_msg1 l.mlp_msg2 stacked
        let dst : Tensor :=
          { shape := [e], fl := false, data := fun p => ei.data [1, p.getD 0 0] }
        let aggr ← scatter msg dst 0 none none l.aggr
        let upd ← catLast2 h aggr
        mlp2 l.mlp_upd1 l.mlp_upd2 upd
      else Except.error "IndexError: edge endpoint out of range"
  | _ => Except.error "ShapeError: node features must be rank 2"

/-- State of the `MPNNModel`: the fixed edge structure, the input
projection, the layer stack, and the prediction head. -/
structure MPNNModelSt where
  edge_index : Tensor
  edge_attr : Tensor
  edge_dim : Nat
  lin_in1 : LinearM
  lin_in2 : LinearM
  convs : List MPNNLayerSt
  lin_pred1 : LinearM
  lin_pred2 : LinearM

/-- Build the `num_layers` message-passing layers, each constructed with
`MPNNLayer(emb_dim, edge_dim, aggr="add")`. -/
def buildConvs (emb_dim edge_dim : Nat) : Nat → Except String (List MPNNLayerSt)
  | 0 => Except.ok []
  | n + 1 => do
      let c ← MPNNLayer_init emb_dim edge_dim "add"
      let rest ← buildConvs emb_dim edge_dim n
      Except.ok (c :: rest)

/-- `MPNNModel.__init__` (`inference.py` lines 281-309): store the edge
structure, read `edge_dim` off `edge_attr.shape[1]` (an IndexError when
`edge_attr` has rank below 2), create the two input linears, the stack of
`num_layers` layers with aggregation `"add"`, and the two prediction
linears.  No relation between the edge-attribute row count and the
edge-index column count is checked anywhere in the constructor. -/
def MPNNModel_init (edge_index edge_attr : Tensor)
    (in_dim num_layers emb_dim out_dim : Nat) : Except String MPNNModelSt := do
  let edge_dim ←
    if 2 ≤ edge_attr.shape.length then Except.ok (edge_attr.shape.getD 1 0)
    else Except.error "IndexError: edge_attr.shape[1]"
  let convs ← buildConvs emb_dim edge_dim num_layers
  Except.ok
    { edge_index := edge_index, edge_attr := edge_attr, edge_dim := edge_dim,
      lin_in1 := zeroLinear in_dim emb_dim,
      lin_in2 := zeroLinear emb_dim emb_dim,
      convs := convs,
      lin_pred1 := zeroLinear emb_dim emb_dim,
      lin_pred2 := zeroLinear emb_dim out_dim }

/-- The forward pass up to and including the output projection
(`inference.py` lines 319-326): two linear+relu input stages, the layer
stack folded in order over the fixed edge structure, then
`relu(lin_pred1)` and `lin_pred2`. -/
def MPNNModel_projOut (m : MPNNModelSt) (x : Tensor) : Except String Tensor := do
  let h1 ← m.lin_in1.apply x
  let h2 ← m.lin_in2.apply (relu h1)
  let h3 ← m.convs.foldlM
    (fun h c => MPNNLayer_forward c m.edge_index m.edge_attr h) (relu h2)
  let h4 ← m.lin_pred1.apply h3
  let out ← m.lin_pred2.apply (relu h4)
  Except.ok out

/-- `MPNNModel.forward` (`inference.py` lines 311-327): the projection
output with its trailing singleton axis squeezed away. -/
def MPNNModel_forward (m : MPNNModelSt) (x : Tensor) : Except String Tensor :=
  (MPNNModel_projOut m x).map squeezeLast

/-- The model forward pass as spec section 4.4 words it: an input
projection of two linear+nonlinearity stages, each Graph Layer applied in
sequence on the fixed edge structure, an output projection of two linear
stages with a nonlinearity only after the first, then removal of a
trailing singleton feature axis. -/
def modelCompositionSpec (m : MPNNModelSt) (x : Tensor) : Except String Tensor := do
  let hidden ← m.lin_in2.apply (relu (← m.lin_in1.apply x))
  let propagated ← m.convs.foldlM
    (fun h c => MPNNLayer_forward c m.edge_index m.edge_attr h) (relu hidden)
  let score ← m.lin_pred2.apply (relu (← m.lin_pred1.apply propagated))
  Except.ok (squeezeLast score)

/-- Build a rank-2 float tensor from a list of rows. -/
def mat (rows : List (List ℚ)) (fl : Bool) : Tensor :=
  { shape := [rows.length, (rows.headD []).length], fl := fl,
    data := fun p => (rows.getD (p.getD 0 0) []).getD (p.getD 1 0) 0 }

/-- Build a rank-1 tensor from a list. -/
def vec (l : List ℚ) (fl : Bool) : Tensor :=
  { shape := [l.length], fl := fl, data := fun p => l.getD (p.getD 0 0) 0 }

/-- Observe whether a fallible computation succeeded. -/
def exOk {α : Type} : Except String α → Bool
  | Except.ok _ => true
  | Except.error _ => false

/-- Observe the shape of a fallible tensor computation. -/
def exShape : Except String Tensor → Option (List Nat)
  | Except.ok t => some t.shape
  | Except.error _ => none

/-- Observe one element of a fallible tensor computation. -/
def exAt (e : Except String Tensor) (p : List Nat) : Option ℚ :=
  match e with
  | Except.ok t => some (t.data p)
  | Except.error _ => none

/-- Concrete value buffer for evaluation: rows (1,2), (3,4), (5,6). -/
def srcW1 : Tensor := mat [[1, 2], [3, 4], [5, 6]] true

/-- Concrete group index (0, 0, 1) parallel to the rows of `srcW1`. -/
def idxW1 : Tensor := vec [0, 0, 1] false

/-- An empty 1-D value buffer. -/
def src0T : Tensor := { shape := [0], fl := true, data := fun _ => 0 }

/-- A one-element index buffer holding the group id 5. -/
def idx5T : Tensor := { shape := [1], fl := false, data := fun _ => 5 }

/-- A value buffer of shape (1, 0): one row of zero width, zero elements. -/
def srcE8 : Tensor := { shape := [1, 0], fl := true, data := fun _ => 0 }

/-- Concrete 1-D value buffer (1, 2). -/
def srcW8 : Tensor := vec [1, 2] true

/-- Concrete group index (0, 5) with an entry out of bounds for dim_size 3. -/
def idxW8 : Tensor := vec [0, 5] false

/-- A 1-D buffer of extent 3 for exercising `broadcast`. -/
def srcB4 : Tensor := vec [7, 8, 9] true

/-- A reference buffer of shape (2, 4) for exercising `broadcast`. -/
def otherB4 : Tensor := { shape := [2, 4], fl := true, data := fun _ => 0 }

/-- A (2, 2) edge-index buffer: edges (0,1) and (1,0). -/
def eiW7 : Tensor :=
  { shape := [2, 2], fl := false,
    data := fun p => if p.getD 0 0 = p.getD 1 0 then 0 else 1 }

/-- A (3, 2) edge-attribute buffer: three rows against two edges. -/
def eaW7 : Tensor := { shape := [3, 2], fl := true, data := fun _ => 0 }

/-- Concrete model state with no message-passing layers, projecting
(2-wide) node features to one scalar per node. -/
def mW9 : MPNNModelSt :=
  { edge_index := eiW7, edge_attr := eaW7, edge_dim := 2,
    lin_in1 := zeroLinear 2 1, lin_in2 := zeroLinear 1 1,
    convs := [],
    lin_pred1 := zeroLinear 1 1, lin_pred2 := zeroLinear 1 1 }

/-- Concrete (2, 2) node-feature input. -/
def xW9 : Tensor := { shape := [2, 2], fl := true, data := fun _ => 1 }

/-- Every layer in the stack maps node-feature buffers of shape `sh` to
node-feature buffers of shape `sh` (on the model's fixed edge structure). -/
def convsPreserve (m : MPNNModelSt) (sh : List Nat) : Prop :=
  ∀ c ∈ m.convs, ∀ h : Tensor, h.shape = sh →
    ∃ h2, MPNNLayer_forward c m.edge_index m.edge_attr h = Except.ok h2 ∧
      h2.shape = sh

theorem getD_set_self (l : List Nat) (d k : Nat) (h : d < l.length) :
    (l.set d k).getD d 0 = k := by
  simp [List.getD_eq_getElem?_getD, List.getElem?_set_self, h]

theorem getD_set_ne (l : List Nat) (a d k : Nat) (h : a ≠ d) :
    (l.set d k).getD a 0 = l.getD a 0 := by
  simp [List.getD_eq_getElem?_getD, List.getElem?_set_ne (Ne.symm h)]

theorem set_getD_self (l : List Nat) (d : Nat) (h : d < l.length) :
    l.set d (l.getD d 0) = l := by
  apply List.ext_getElem?
  intro n
  by_cases hn : n = d
  · subst hn
    rw [List.getElem?_set_self h]
    simp [List.getD_eq_getElem?_getD, List.getElem?_eq_getElem h]
  · exact List.getElem?_set_ne (fun he => hn he.symm)

theorem mem_allIdx : ∀ (s p : List Nat),
    p ∈ allIdx s ↔ p.length = s.length ∧ ∀ i, i < s.length → p.getD i 0 < s.getD i 0
  | [], p => by
      constructor
      · intro hp
        simp only [allIdx, List.mem_singleton] at hp
        subst hp
        simp
      · intro h
        simp only [allIdx, List.mem_singleton]
        exact List.eq_nil_of_length_eq_zero h.1
  | n :: s, p => by
      constructor
      · intro hp
        simp only [allIdx, List.mem_flatMap, List.mem_map, List.mem_range] at hp
        obtain ⟨i, hi, q, hq, rfl⟩ := hp
        have IH := (mem_allIdx s q).mp hq
        refine ⟨by simp [IH.1], ?_⟩
        intro j hj
        cases j with
        | zero => simpa using hi
        | succ j => simpa using IH.2 j (by simpa using hj)
      · rintro ⟨h1, h2⟩
        cases p with
        | nil => simp at h1
        | cons a q =>
            simp only [allIdx, List.mem_flatMap, List.mem_map, List.mem_range]
            refine ⟨a, by simpa using h2 0 (by simp), q, ?_, rfl⟩
            refine (mem_allIdx s q).mpr ⟨by simpa using h1, ?_⟩
            intro i hi
            simpa using h2 (i + 1) (by simpa using hi)

theorem length_of_mem_allIdx {s p : List Nat} (h : p ∈ allIdx s) :
    p.length = s.length := ((mem_allIdx s p).mp h).1

theorem getD_lt_of_mem_allIdx {s p : List Nat} (h : p ∈ allIdx s) {i : Nat}
    (hi : i < s.length) : p.getD i 0 < s.getD i 0 := ((mem_allIdx s p).mp h).2 i hi

theorem nodup_allIdx : ∀ s : List Nat, (allIdx s).Nodup
  | [] => by simp [allIdx]
  | n :: s => by
      simp only [allIdx]
      rw [List.nodup_flatMap]
      constructor
      · intro i _
        exact (nodup_allIdx s).map (fun a b h => by injection h)
      · have : ∀ a b : Nat, a ≠ b →
            List.Disjoint ((allIdx s).map (fun p => a :: p))
              ((allIdx s).map (fun p => b :: p)) := by
          intro a b hab x hxa hxb
          simp only [List.mem_map] at hxa hxb
          obtain ⟨qa, _, rfl⟩ := hxa
          obtain ⟨qb, _, hb⟩ := hxb
          exact hab (by injection hb with h1 _; exact h1.symm)
        exact List.Pairwise.imp (fun hab => this _ _ (Nat.ne_of_lt hab))
          (List.pairwise_lt_range n)

theorem scatFold_go_ok {σ : Type} (src index : Tensor) (d sz : Nat)
    (comb : σ → ℚ → Nat → σ) :
    ∀ (L : List (List Nat)) (init : List Nat → σ),
      (∀ j ∈ L, scatInBounds index sz j) →
      ∃ st, List.foldlM (scatStep src index d sz comb) init L = Except.ok st ∧
        ∀ p, st p =
          (L.filter (fun j => scatTarget index d j = p)).foldl
            (fun s j => comb s (src.data j) (j.getD d 0)) (init p)
  | [], init, _ => ⟨init, rfl, fun p => rfl⟩
  | j :: tl, init, hb => by
      have hj : scatInBounds index sz j := hb j (List.mem_cons_self j tl)
      have hstep : scatStep src index d sz comb init j =
          Except.ok (fun q =>
            if q = scatTarget index d j then comb (init q) (src.data j) (j.getD d 0)
            else init q) := by
        rw [scatStep, if_pos hj]
      obtain ⟨st, hfold, hval⟩ := scatFold_go_ok src index d sz comb tl
        (fun q => if q = scatTarget index d j then comb (init q) (src.data j) (j.getD d 0)
          else init q)
        (fun j' hj' => hb j' (List.mem_cons_of_mem j hj'))
      refine ⟨st, ?_, ?_⟩
      · rw [List.foldlM_cons, hstep]
        exact hfold
      · intro p
        rw [hval p]
        by_cases hp : scatTarget index d j = p
        · have : (j :: tl).filter (fun j' => scatTarget index d j' = p) =
              j :: tl.filter (fun j' => scatTarget index d j' = p) := by
            rw [List.filter_cons_of_pos (by simpa using hp)]
          rw [this, List.foldl_cons, if_pos hp.symm]
        · have : (j :: tl).filter (fun j' => scatTarget index d j' = p) =
              tl.filter (fun j' => scatTarget index d j' = p) := by
            rw [List.filter_cons_of_neg (by simpa using hp)]
          rw [this, if_neg (fun he => hp he.symm)]

theorem scatFold_go_err {σ : Type} (src index : Tensor) (d sz : Nat)
    (comb : σ → ℚ → Nat → σ) :
    ∀ (L : List (List Nat)) (init : List Nat → σ),
      (∃ j ∈ L, ¬ scatInBounds index sz j) →
      List.foldlM (scatStep src index d sz comb) init L =
        Except.error "IndexError: scatter index out of bounds"
  | [], _, h => by simp at h
  | j :: tl, init, h => by
      by_cases hj : scatInBounds index sz j
      · obtain ⟨j0, hj0, hbad⟩ := h
        rcases List.mem_cons.mp hj0 with rfl | hj0tl
        · exact absurd hj hbad
        · rw [List.foldlM_cons, scatStep, if_pos hj]
          exact scatFold_go_err src index d sz comb tl _ ⟨j0, hj0tl, hbad⟩
      · rw [List.foldlM_cons, scatStep, if_neg hj]
        rfl

theorem scatFold_ok (src index : Tensor) (d sz : Nat) {σ : Type}
    (comb : σ → ℚ → Nat → σ) (init : List Nat → σ)
    (hb : ∀ j ∈ allIdx src.shape, scatInBounds index sz j) :
    ∃ st, scatFold src index d sz comb init = Except.ok st ∧
      ∀ p, st p =
        ((allIdx src.shape).filter (fun j => scatTarget index d j = p)).foldl
          (fun s j => comb s (src.data j) (j.getD d 0)) (init p) :=
  scatFold_go_ok src index d sz comb (allIdx src.shape) init hb

theorem foldl_add_sum (f : List Nat → ℚ) :
    ∀ (l : List (List Nat)) (c : ℚ),
      l.foldl (fun s j => s + f j) c = c + (l.map f).sum
  | [], c => by simp
  | j :: tl, c => by
      rw [List.foldl_cons, foldl_add_sum f tl (c + f j), List.map_cons, List.sum_cons]
      ring

theorem resolveDim_ok {dim : Int} {r d : Nat} (h : resolveDim dim r = Except.ok d) :
    pyDim dim r = (d : Int) ∧ d < r := by
  rw [resolveDim] at h
  split at h
  case isTrue hc =>
    cases h
    refine ⟨(Int.toNat_of_nonneg hc.1).symm, ?_⟩
    have := hc.2
    omega
  case isFalse => cases h

theorem iterUnsq0_spec : ∀ (k : Nat) (t : Tensor),
    (iterUnsq0 k t).shape = List.replicate k 1 ++ t.shape ∧
      (iterUnsq0 k t).fl = t.fl ∧
      ∀ p, (iterUnsq0 k t).data p = t.data (p.drop k)
  | 0, t => ⟨by simp [iterUnsq0], rfl, fun p => by simp [iterUnsq0]⟩
  | k + 1, t => by
      have IH := iterUnsq0_spec k t.unsq0
      refine ⟨?_, IH.2.1, ?_⟩
      · rw [iterUnsq0, IH.1]
        simp [Tensor.unsq0, List.replicate_succ', List.append_assoc]
      · intro p
        rw [iterUnsq0, IH.2.2 p]
        simp [Tensor.unsq0, List.drop_drop]

theorem iterUnsqLast_spec : ∀ (k : Nat) (t : Tensor),
    (iterUnsqLast k t).shape = t.shape ++ List.replicate k 1 ∧
      (iterUnsqLast k t).fl = t.fl ∧
      ∀ p, p.length = t.shape.length + k →
        (iterUnsqLast k t).data p = t.data (p.take t.shape.length)
  | 0, t => by
      refine ⟨by simp [iterUnsqLast], rfl, ?_⟩
      intro p hp
      rw [iterUnsqLast]
      rw [show t.shape.length = p.length by omega, List.take_length]
  | k + 1, t => by
      have IH := iterUnsqLast_spec k t.unsqLast
      refine ⟨?_, IH.2.1, ?_⟩
      · rw [iterUnsqLast, IH.1]
        simp [Tensor.unsqLast, List.append_assoc, List.replicate_succ]
      · intro p hp
        rw [iterUnsqLast, IH.2.2 p (by simp [Tensor.unsqLast]; omega)]
        simp [Tensor.unsqLast, List.take_take]

theorem expand_ok_shape {t : Tensor} {s : List Nat} {u : Tensor}
    (h : t.expand s = Except.ok u) : u.shape = s ∧ u.fl = t.fl := by
  rw [Tensor.expand] at h
  split at h
  · cases h; exact ⟨rfl, rfl⟩
  · cases h

theorem broadcast_oneD (idx other : Tensor) (dim : Int) (d : Nat)
    (hres : resolveDim dim other.shape.length = Except.ok d)
    (hE : idx.shape = [other.shape.getD d 0]) :
    ∃ I, broadcast idx other dim = Except.ok I ∧ I.shape = other.shape ∧
      I.fl = idx.fl ∧
      ∀ p : List Nat, p.getD d 0 < other.shape.getD d 0 →
        I.data p = idx.data [p.getD d 0] := by
  obtain ⟨hpy, hdn⟩ := resolveDim_ok hres
  have hlen1 : idx.shape.length = 1 := by rw [hE]; rfl
  have hdint : (if dim < 0 then (other.shape.length : Int) + dim else dim) = (d : Int) := by
    rw [pyDim] at hpy
    rcases lt_or_ge dim 0 with h0 | h0
    · rw [if_pos h0] at hpy ⊢; omega
    · rw [if_neg (not_lt.mpr h0)] at hpy ⊢; exact hpy
  have hu0 := iterUnsq0_spec d idx
  have hs1shape : (iterUnsq0 d idx).shape =
      List.replicate d 1 ++ [other.shape.getD d 0] := by rw [hu0.1, hE]
  have hs1len : (iterUnsq0 d idx).shape.length = d + 1 := by rw [hs1shape]; simp
  have hul := iterUnsqLast_spec (other.shape.length - (d + 1)) (iterUnsq0 d idx)
  have hs2shape : (iterUnsqLast (other.shape.length - (d + 1)) (iterUnsq0 d idx)).shape =
      (List.replicate d 1 ++ [other.shape.getD d 0]) ++
        List.replicate (other.shape.length - (d + 1)) 1 := by
    rw [hul.1, hs1shape]
  have hs2len : (iterUnsqLast (other.shape.length - (d + 1)) (iterUnsq0 d idx)).shape.length =
      other.shape.length := by
    rw [hs2shape]; simp; omega
  have hbroad : broadcast idx other dim =
      (iterUnsqLast (other.shape.length - (d + 1)) (iterUnsq0 d idx)).expand other.shape := by
    unfold broadcast
    simp only [hlen1, if_true, hdint, Int.toNat_natCast, hs1len, eq_self_iff_true]
  have hget : ∀ i, i < other.shape.length →
      (iterUnsqLast (other.shape.length - (d + 1)) (iterUnsq0 d idx)).shape.getD i 0 =
        if i = d then other.shape.getD d 0 else 1 := by
    intro i hi
    rw [hs2shape]
    by_cases hid : i = d
    · subst hid
      rw [List.getD_append _ _ _ _ (by simp)]
      rw [List.getD_append_right _ _ _ _ (by simp)]
      simp
    · rw [if_neg hid]
      rcases lt_or_gt_of_ne hid with hlt | hgt
      · rw [List.getD_append _ _ _ _ (by simp; omega)]
        rw [List.getD_append _ _ _ _ (by simp [hlt])]
        simp [List.getD_eq_getElem?_getD, List.getElem?_replicate, hlt]
      · rw [List.getD_append_right _ _ _ _ (by simp; omega)]
        have : i - (d + 1) < other.shape.length - (d + 1) := by omega
        simp [List.getD_eq_getElem?_getD, List.getElem?_replicate, this]
  have hcond : (iterUnsqLast (other.shape.length - (d + 1)) (iterUnsq0 d idx)).shape.length ≤
        other.shape.length ∧
      ∀ i ∈ List.range
          (iterUnsqLast (other.shape.length - (d + 1)) (iterUnsq0 d idx)).shape.length,
        (iterUnsqLast (other.shape.length - (d + 1)) (iterUnsq0 d idx)).shape.getD i 0 = 1 ∨
        (iterUnsqLast (other.shape.length - (d + 1)) (iterUnsq0 d idx)).shape.getD i 0 =
          other.shape.getD
            (other.shape.length -
              (iterUnsqLast (other.shape.length - (d + 1)) (iterUnsq0 d idx)).shape.length + i)
            0 := by
    constructor
    · rw [hs2len]
    · intro i hi
      rw [hs2len] at hi
      have hi' : i < other.shape.length := List.mem_range.mp hi
      rw [hget i hi', hs2len]
      by_cases hid : i = d
      · right; subst hid; simp
      · left; rw [if_neg hid]
  have hexp : (iterUnsqLast (other.shape.length - (d + 1)) (iterUnsq0 d idx)).expand
      other.shape = Except.ok
      { shape := other.shape,
        fl := (iterUnsqLast (other.shape.length - (d + 1)) (iterUnsq0 d idx)).fl,
        data := fun p =>
          (iterUnsqLast (other.shape.length - (d + 1)) (iterUnsq0 d idx)).data
            ((List.range
              (iterUnsqLast (other.shape.length - (d + 1)) (iterUnsq0 d idx)).shape.length).map
              (fun i =>
                if (iterUnsqLast (other.shape.length - (d + 1))
                      (iterUnsq0 d idx)).shape.getD i 0 = 1 then 0
                else p.getD
                  (other.shape.length -
                    (iterUnsqLast (other.shape.length - (d + 1))
                      (iterUnsq0 d idx)).shape.length + i) 0)) } := by
    rw [Tensor.expand, if_pos hcond]
  have hok := hbroad.trans hexp
  refine ⟨_, hok, rfl, by rw [hul.2.1, hu0.2.1], ?_⟩
  intro p hpd
  show (iterUnsqLast (other.shape.length - (d + 1)) (iterUnsq0 d idx)).data _ =
    idx.data [p.getD d 0]
  rw [hul.2.2 _ (by rw [List.length_map, List.length_range, hs2len, hs1len]; omega)]
  rw [hu0.2.2]
  congr 1
  simp only [hs1len, hs2len]
  have htake : ((List.range other.shape.length).map
      (fun i =>
        if (iterUnsqLast (other.shape.length - (d + 1))
              (iterUnsq0 d idx)).shape.getD i 0 = 1 then 0
        else p.getD (other.shape.length - other.shape.length + i) 0)).take (d + 1) =
      ((List.range (d + 1)).map
        (fun i =>
          if (iterUnsqLast (other.shape.length - (d + 1))
                (iterUnsq0 d idx)).shape.getD i 0 = 1 then 0
          else p.getD (other.shape.length - other.shape.length + i) 0)) := by
    rw [← List.map_take, List.take_range, Nat.min_eq_left (by omega)]
  rw [htake, List.range_succ, List.map_append]
  rw [List.drop_left' (by simp)]
  simp only [List.map_cons, List.map_nil]
  congr 1
  have hgd : (iterUnsqLast (other.shape.length - (d + 1)) (iterUnsq0 d idx)).shape.getD d 0 =
      other.shape.getD d 0 := by rw [hget d hdn]; simp
  rw [hgd]
  by_cases hE1 : other.shape.getD d 0 = 1
  · rw [if_pos hE1]
    omega
  · rw [if_neg hE1]
    rw [Nat.sub_self, Nat.zero_add]

theorem ok_bind {α β : Type} (a : α) (f : α → Except String β) :
    (Except.ok a : Except String α) >>= f = f a := rfl

theorem err_bind {α β : Type} (e : String) (f : α → Except String β) :
    (Except.error e : Except String α) >>= f = Except.error e := rfl

theorem scatter_sum_rows (src idx : Tensor) (dim : Int) (d dsz : Nat)
    (hres : resolveDim dim src.shape.length = Except.ok d)
    (hsh : idx.shape = [src.shape.getD d 0])
    (hint : ∀ k, k < src.shape.getD d 0 →
      ∃ z : Int, idx.data [k] = (z : ℚ) ∧ 0 ≤ z ∧ z < (dsz : Int)) :
    ∃ t, scatter_sum src idx dim none (some dsz) = Except.ok t ∧
      t.shape = src.shape.set d dsz ∧ t.fl = src.fl ∧
      ∀ p ∈ allIdx (src.shape.set d dsz),
        t.data p =
          ∑ k ∈ (Finset.range (src.shape.getD d 0)).filter
              (fun k => idx.data [k] = ((p.getD d 0 : Nat) : ℚ)),
            src.data (p.set d k) := by
  have hdn : d < src.shape.length := (resolveDim_ok hres).2
  obtain ⟨I, hIok, hIsh, hIfl, hIdata⟩ := broadcast_oneD idx src dim d hres hsh
  have hbnd : ∀ j ∈ allIdx src.shape, scatInBounds I dsz j := by
    intro j hj
    have hjd : j.getD d 0 < src.shape.getD d 0 := getD_lt_of_mem_allIdx hj hdn
    obtain ⟨z, hz, hz0, hzd⟩ := hint _ hjd
    have hIj : I.data j = (z : ℚ) := by rw [hIdata j hjd]; exact hz
    constructor
    · rw [hIj, Int.floor_intCast]; exact hz0
    · rw [hIj, Int.floor_intCast]; omega
  obtain ⟨st, hfold, hstval⟩ :=
    scatFold_ok src I d dsz (fun s v _ => s + v) (fun _ => (0 : ℚ)) hbnd
  have hszeq : (src.shape.set d dsz).getD d 0 = dsz := getD_set_self _ _ _ hdn
  have hpre : I.shape = src.shape ∧
      (src.shape.set d dsz).length = src.shape.length ∧
      ∀ a ∈ List.range src.shape.length,
        a = d ∨ src.shape.getD a 0 ≤ (src.shape.set d dsz).getD a 0 := by
    refine ⟨hIsh, List.length_set _ _ _, ?_⟩
    intro a _
    by_cases had : a = d
    · left; exact had
    · right; rw [getD_set_ne _ _ _ _ had]
  have hadd : scatterAddInto
      { shape := src.shape.set d dsz, fl := src.fl, data := fun _ => 0 } I src d =
      Except.ok { shape := src.shape.set d dsz, fl := src.fl, data := st } := by
    unfold scatterAddInto
    rw [if_pos hpre]
    dsimp only
    rw [hszeq, hfold]
    rfl
  have hmain : scatter_sum src idx dim none (some dsz) =
      Except.ok { shape := src.shape.set d dsz, fl := src.fl, data := st } := by
    unfold scatter_sum
    rw [hIok, ok_bind]
    simp only []
    rw [hres, ok_bind]
    rw [if_pos (show (0 : Int) ≤ autoDimSize I (some dsz) from Int.natCast_nonneg dsz)]
    exact hadd
  refine ⟨_, hmain, rfl, rfl, ?_⟩
  intro p hp
  have hplen : p.length = src.shape.length := by
    have := length_of_mem_allIdx hp
    rwa [List.length_set] at this
  have hpd : p.getD d 0 < dsz := by
    have := getD_lt_of_mem_allIdx hp (by rw [List.length_set]; exact hdn)
    rwa [hszeq] at this
  have hmemA : ∀ j, j ∈ allIdx src.shape → scatTarget I d j = p →
      j.getD d 0 < src.shape.getD d 0 ∧
      idx.data [j.getD d 0] = ((p.getD d 0 : Nat) : ℚ) ∧
      p.set d (j.getD d 0) = j := by
    intro j hj htgt
    have hjlen := length_of_mem_allIdx hj
    have hjd : j.getD d 0 < src.shape.getD d 0 := getD_lt_of_mem_allIdx hj hdn
    obtain ⟨z, hz, hz0, hzlt⟩ := hint _ hjd
    have hIj : I.data j = (z : ℚ) := by rw [hIdata j hjd]; exact hz
    have htgt' : j.set d z.toNat = p := by
      rw [← htgt, scatTarget, hIj, Int.floor_intCast]
    have hpdz : p.getD d 0 = z.toNat := by
      rw [← htgt', getD_set_self _ _ _ (by omega)]
    refine ⟨hjd, ?_, ?_⟩
    · rw [hz, hpdz]
      exact_mod_cast (congrArg (fun w : Int => (w : ℚ)) (Int.toNat_of_nonneg hz0)).symm
    · rw [← htgt', List.set_set]
      exact set_getD_self _ _ (by omega)
  have hmemB : ∀ k, k < src.shape.getD d 0 →
      idx.data [k] = ((p.getD d 0 : Nat) : ℚ) →
      p.set d k ∈ allIdx src.shape ∧ scatTarget I d (p.set d k) = p := by
    intro k hk hke
    have hdp : d < p.length := by rw [hplen]; exact hdn
    have hmem : p.set d k ∈ allIdx src.shape := by
      rw [mem_allIdx]
      constructor
      · rw [List.length_set, hplen]
      · intro i hi
        by_cases hid : i = d
        · subst hid
          rw [getD_set_self _ _ _ hdp]
          exact hk
        · rw [getD_set_ne _ _ _ _ hid]
          have := getD_lt_of_mem_allIdx hp (by rw [List.length_set]; exact hi)
          rwa [getD_set_ne _ _ _ _ hid] at this
    refine ⟨hmem, ?_⟩
    have hgd : (p.set d k).getD d 0 = k := getD_set_self _ _ _ hdp
    have hI : I.data (p.set d k) = idx.data [k] := by
      rw [hIdata _ (by rw [hgd]; exact hk), hgd]
    rw [scatTarget, hI, hke, Int.floor_natCast, Int.toNat_natCast, List.set_set]
    exact set_getD_self _ _ hdp
  show st p = _
  rw [hstval p, foldl_add_sum]
  rw [zero_add]
  have hAnodup : ((allIdx src.shape).filter
      (fun j => scatTarget I d j = p)).Nodup := (nodup_allIdx _).filter _
  rw [← List.sum_toFinset _ hAnodup, List.toFinset_filter]
  refine Finset.sum_nbij' (fun j => j.getD d 0) (fun k => p.set d k) ?_ ?_ ?_ ?_ ?_
  · intro j hj
    simp only [Finset.mem_filter, List.mem_toFinset, decide_eq_true_eq] at hj
    obtain ⟨h1, h2, _⟩ := hmemA j hj.1 hj.2
    simp only [Finset.mem_filter, Finset.mem_range]
    exact ⟨h1, h2⟩
  · intro k hk
    simp only [Finset.mem_filter, Finset.mem_range] at hk
    obtain ⟨h1, h2⟩ := hmemB k hk.1 hk.2
    simp only [Finset.mem_filter, List.mem_toFinset, decide_eq_true_eq]
    exact ⟨h1, h2⟩
  · intro j hj
    simp only [Finset.mem_filter, List.mem_toFinset, decide_eq_true_eq] at hj
    exact (hmemA j hj.1 hj.2).2.2
  · intro k hk
    simp only [Finset.mem_filter, Finset.mem_range] at hk
    exact getD_set_self _ _ _ (by rw [hplen]; exact hdn)
  · intro j hj
    simp only [Finset.mem_filter, List.mem_toFinset, decide_eq_true_eq] at hj
    rw [(hmemA j hj.1 hj.2).2.2]

/-- C1: for every value buffer, 1-D group-index buffer parallel to the
extent at the (resolved) axis `dim`, and explicit `dim_size`, the group-g
slice of `scatter_sum` equals the elementwise sum of every row of the value
buffer whose index entry equals `g`, and equals zero for any group with no
contributing rows. -/
theorem scatter_sum_group_correct (src idx : Tensor) (dim : Int) (d dsz : Nat)
    (hres : resolveDim dim src.shape.length = Except.ok d)
    (hsh : idx.shape = [src.shape.getD d 0])
    (hint : ∀ k, k < src.shape.getD d 0 →
      ∃ z : Int, idx.data [k] = (z : ℚ) ∧ 0 ≤ z ∧ z < (dsz : Int)) :
    ∃ t, scatter_sum src idx dim none (some dsz) = Except.ok t ∧
      t.shape = src.shape.set d dsz ∧
      (∀ p ∈ allIdx (src.shape.set d dsz),
        t.data p =
          ∑ k ∈ (Finset.range (src.shape.getD d 0)).filter
              (fun k => idx.data [k] = ((p.getD d 0 : Nat) : ℚ)),
            src.data (p.set d k)) ∧
      (∀ p ∈ allIdx (src.shape.set d dsz),
        (∀ k, k < src.shape.getD d 0 → idx.data [k] ≠ ((p.getD d 0 : Nat) : ℚ)) →
        t.data p = 0) := by
  obtain ⟨t, hok, hshape, _, hdata⟩ := scatter_sum_rows src idx dim d dsz hres hsh hint
  refine ⟨t, hok, hshape, hdata, ?_⟩
  intro p hp hnone
  rw [hdata p hp]
  rw [Finset.filter_false_of_mem
    (fun k hk => hnone k (Finset.mem_range.mp hk))]
  exact Finset.sum_empty

/-- Witness: a (3, 2) value buffer with rows (1,2), (3,4), (5,6) and group
index (0, 0, 1) reduced along axis 0 into 2 groups: group 0 sums rows 0 and
1, group 1 holds row 2. -/
theorem scatter_sum_group_correct_witness :
    ∃ t, scatter_sum srcW1 idxW1 0 none (some 2) = Except.ok t ∧
      t.data [0, 0] = 4 ∧ t.data [0, 1] = 6 ∧ t.data [1, 0] = 5 := by
  obtain ⟨t, hok, _, hdata, _⟩ := scatter_sum_group_correct srcW1 idxW1 0 0 2
    rfl rfl
    (by
      intro k hk
      have hk3 : k < 3 := hk
      interval_cases k
      · exact ⟨0, by norm_num [idxW1, vec], by norm_num, by norm_num⟩
      · exact ⟨0, by norm_num [idxW1, vec], by norm_num, by norm_num⟩
      · exact ⟨1, by norm_num [idxW1, vec], by norm_num, by norm_num⟩)
  refine ⟨t, hok, ?_, ?_, ?_⟩
  · rw [hdata [0, 0] (by decide)]
    norm_num [srcW1, idxW1, mat, vec, Finset.sum_filter, Finset.sum_range_succ]
  · rw [hdata [0, 1] (by decide)]
    norm_num [srcW1, idxW1, mat, vec, Finset.sum_filter, Finset.sum_range_succ]
  · rw [hdata [1, 0] (by decide)]
    norm_num [srcW1, idxW1, mat, vec, Finset.sum_filter, Finset.sum_range_succ]

/-- C10: `scatter_add` and `scatter` with reduce `"add"` are exact aliases
of `scatter_sum` and `scatter` with reduce `"sum"`, for every value buffer,
index buffer, axis, `out` argument and `dim_size`. -/
theorem scatter_add_alias (src idx : Tensor) (dim : Int) (out : Option Tensor)
    (dim_size : Option Nat) :
    scatter_add src idx dim out dim_size = scatter_sum src idx dim out dim_size ∧
    scatter src idx dim out dim_size "add" = scatter src idx dim out dim_size "sum" := by
  refine ⟨rfl, ?_⟩
  unfold scatter
  rw [if_pos (Or.inr rfl), if_pos (Or.inl rfl)]

theorem eq_singleton_of_length_one {l : List Nat} (h : l.length = 1) :
    l = [l.getD 0 0] := by
  match l, h with
  | [a], _ => rfl

theorem broadcast_ok_shape {src other : Tensor} {dim : Int} {t : Tensor}
    (h : broadcast src other dim = Except.ok t) : t.shape = other.shape := by
  unfold broadcast at h
  exact (expand_ok_shape h).1

/-- C4: for every `src`, reference buffer `other` and valid axis `dim`
(negative `dim` resolved against `other`'s rank), a successful
`broadcast(src, other, dim)` returns a buffer with exactly `other`'s shape,
and it fails with a ShapeError when `src`'s extent at `dim` (its only
extent when `src` is 1-D) is neither `1` nor `other`'s extent at `dim`. -/
theorem broadcast_shape_correct (src other : Tensor) (dim : Int) (d : Nat)
    (hres : resolveDim dim other.shape.length = Except.ok d) :
    (∀ t, broadcast src other dim = Except.ok t → t.shape = other.shape) ∧
    ((src.shape.length = 1 ∨ d < src.shape.length) →
      (if src.shape.length = 1 then src.shape.getD 0 0 else src.shape.getD d 0) ≠ 1 →
      (if src.shape.length = 1 then src.shape.getD 0 0 else src.shape.getD d 0) ≠
        other.shape.getD d 0 →
      ∃ s, broadcast src other dim = Except.error s) := by
  obtain ⟨hpy, hdn⟩ := resolveDim_ok hres
  refine ⟨fun t ht => broadcast_ok_shape ht, ?_⟩
  intro hrk hne1 hneq
  have hdint : (if dim < 0 then (other.shape.length : Int) + dim else dim) = (d : Int) := by
    rw [pyDim] at hpy
    rcases lt_or_ge dim 0 with h0 | h0
    · rw [if_pos h0] at hpy ⊢; omega
    · rw [if_neg (not_lt.mpr h0)] at hpy ⊢; exact hpy
  by_cases hsrc1 : src.shape.length = 1
  · rw [if_pos hsrc1] at hne1 hneq
    have hsrcl : src.shape = [src.shape.getD 0 0] := eq_singleton_of_length_one hsrc1
    have hu0 := iterUnsq0_spec d src
    have hs1len : (iterUnsq0 d src).shape.length = d + 1 := by
      rw [hu0.1]; simp [hsrc1]
    have hul := iterUnsqLast_spec (other.shape.length - (d + 1)) (iterUnsq0 d src)
    have hs2shape :
        (iterUnsqLast (other.shape.length - (d + 1)) (iterUnsq0 d src)).shape =
          (List.replicate d 1 ++ [src.shape.getD 0 0]) ++
            List.replicate (other.shape.length - (d + 1)) 1 := by
      rw [hul.1, hu0.1, ← hsrcl]
    have hs2len :
        (iterUnsqLast (other.shape.length - (d + 1)) (iterUnsq0 d src)).shape.length =
          other.shape.length := by
      rw [hs2shape]; simp; omega
    have hs2getd :
        (iterUnsqLast (other.shape.length - (d + 1)) (iterUnsq0 d src)).shape.getD d 0 =
          src.shape.getD 0 0 := by
      rw [hs2shape]
      rw [List.getD_append _ _ _ _ (by simp)]
      rw [List.getD_append_right _ _ _ _ (by simp)]
      simp
    have hb : broadcast src other dim =
        (iterUnsqLast (other.shape.length - (d + 1)) (iterUnsq0 d src)).expand
          other.shape := by
      unfold broadcast
      simp only [hsrc1, if_true, hdint, Int.toNat_natCast, hs1len, eq_self_iff_true]
    rw [hb, Tensor.expand, if_neg]
    · exact ⟨_, rfl⟩
    · intro hcond
      have hmem : d ∈ List.range
          (iterUnsqLast (other.shape.length - (d + 1)) (iterUnsq0 d src)).shape.length := by
        rw [hs2len]; exact List.mem_range.mpr hdn
      have hdisj := hcond.2 d hmem
      rw [hs2getd, hs2len, Nat.sub_self, Nat.zero_add] at hdisj
      rcases hdisj with h | h
      · exact hne1 h
      · exact hneq h
  · have hd2 : d < src.shape.length := by
      rcases hrk with h | h
      · exact absurd h hsrc1
      · exact h
    rw [if_neg hsrc1] at hne1 hneq
    have hul := iterUnsqLast_spec (other.shape.length - src.shape.length) src
    have hb : broadcast src other dim =
        (iterUnsqLast (other.shape.length - src.shape.length) src).expand other.shape := by
      unfold broadcast
      simp only [hsrc1, if_false]
    by_cases hle : src.shape.length ≤ other.shape.length
    · have hs2len :
          (iterUnsqLast (other.shape.length - src.shape.length) src).shape.length =
            other.shape.length := by
        rw [hul.1]; simp; omega
      have hs2getd :
          (iterUnsqLast (other.shape.length - src.shape.length) src).shape.getD d 0 =
            src.shape.getD d 0 := by
        rw [hul.1]
        exact List.getD_append _ _ _ _ hd2
      rw [hb, Tensor.expand, if_neg]
      · exact ⟨_, rfl⟩
      · intro hcond
        have hmem : d ∈ List.range
            (iterUnsqLast (other.shape.length - src.shape.length) src).shape.length := by
          rw [hs2len]; exact List.mem_range.mpr hdn
        have hdisj := hcond.2 d hmem
        rw [hs2getd, hs2len, Nat.sub_self, Nat.zero_add] at hdisj
        rcases hdisj with h | h
        · exact hne1 h
        · exact hneq h
    · have hs2len :
          (iterUnsqLast (other.shape.length - src.shape.length) src).shape.length =
            src.shape.length := by
        rw [hul.1]; simp; omega
      rw [hb, Tensor.expand, if_neg]
      · exact ⟨_, rfl⟩
      · intro hcond
        have := hcond.1
        rw [hs2len] at this
        omega

/-- Witness: broadcasting a 1-D buffer of extent 3 against a (2, 4)
reference along axis `-1` (resolved to axis 1, extent 4) fails with a
ShapeError since 3 is neither 1 nor 4; and the successful direction is
exercised by the index broadcast inside `scatter_sum_group_correct_witness`. -/
theorem broadcast_shape_correct_witness :
    ∃ s, broadcast srcB4 otherB4 (-1) = Except.error s := by
  have h := broadcast_shape_correct srcB4 otherB4 (-1) 1
    (by simp [resolveDim, pyDim, otherB4])
  exact h.2 (Or.inl rfl) (by norm_num [srcB4, vec]) (by norm_num [srcB4, otherB4, vec])

theorem scatter_sum_oob (src idx : Tensor) (dim : Int) (d dsz : Nat)
    (hres : resolveDim dim src.shape.length = Except.ok d)
    (hsh : idx.shape = [src.shape.getD d 0])
    (hpos : ∀ a, a < src.shape.length → 0 < src.shape.getD a 0)
    (hbad : ∃ k, k < src.shape.getD d 0 ∧
      ∃ z : Int, idx.data [k] = (z : ℚ) ∧ (z < 0 ∨ (dsz : Int) ≤ z)) :
    ∃ s, scatter_sum src idx dim none (some dsz) = Except.error s := by
  have hdn : d < src.shape.length := (resolveDim_ok hres).2
  obtain ⟨I, hIok, hIsh, hIfl, hIdata⟩ := broadcast_oneD idx src dim d hres hsh
  obtain ⟨k, hk, z, hz, hzbad⟩ := hbad
  have hdm : d < (src.shape.map (fun _ => 0)).length := by
    rw [List.length_map]; exact hdn
  have hj0len : ((src.shape.map (fun _ => 0)).set d k).length = src.shape.length := by
    rw [List.length_set, List.length_map]
  have hj0d : ((src.shape.map (fun _ => 0)).set d k).getD d 0 = k :=
    getD_set_self _ _ _ hdm
  have hj0mem : (src.shape.map (fun _ => 0)).set d k ∈ allIdx src.shape := by
    rw [mem_allIdx]
    refine ⟨hj0len, ?_⟩
    intro i hi
    by_cases hid : i = d
    · subst hid
      rw [hj0d]
      exact hk
    · rw [getD_set_ne _ _ _ _ hid]
      have hz0 : (src.shape.map (fun _ => 0)).getD i 0 = 0 := by
        rw [List.getD_eq_getElem?_getD, List.getElem?_map]
        cases src.shape[i]? <;> simp
      rw [hz0]
      exact hpos i hi
  have hnb : ¬ scatInBounds I dsz ((src.shape.map (fun _ => 0)).set d k) := by
    have hIj : I.data ((src.shape.map (fun _ => 0)).set d k) = (z : ℚ) := by
      rw [hIdata _ (by rw [hj0d]; exact hk), hj0d, hz]
    rintro ⟨h1, h2⟩
    rw [hIj, Int.floor_intCast] at h1 h2
    rcases hzbad with h | h
    · omega
    · omega
  have hfold : scatFold src I d dsz (fun s v _ => s + v) (fun _ => (0 : ℚ)) =
      Except.error "IndexError: scatter index out of bounds" :=
    scatFold_go_err src I d dsz _ _ _ ⟨_, hj0mem, hnb⟩
  have hszeq : (src.shape.set d dsz).getD d 0 = dsz := getD_set_self _ _ _ hdn
  have hpre : I.shape = src.shape ∧
      (src.shape.set d dsz).length = src.shape.length ∧
      ∀ a ∈ List.range src.shape.length,
        a = d ∨ src.shape.getD a 0 ≤ (src.shape.set d dsz).getD a 0 := by
    refine ⟨hIsh, List.length_set _ _ _, ?_⟩
    intro a _
    by_cases had : a = d
    · left; exact had
    · right; rw [getD_set_ne _ _ _ _ had]
  have hadd : scatterAddInto
      { shape := src.shape.set d dsz, fl := src.fl, data := fun _ => 0 } I src d =
      Except.error "IndexError: scatter index out of bounds" := by
    unfold scatterAddInto
    rw [if_pos hpre]
    dsimp only
    rw [hszeq, hfold]
    rfl
  refine ⟨"IndexError: scatter index out of bounds", ?_⟩
  unfold scatter_sum
  rw [hIok, ok_bind]
  simp only []
  rw [hres, ok_bind]
  rw [if_pos (show (0 : Int) ≤ autoDimSize I (some dsz) from Int.natCast_nonneg dsz)]
  exact hadd

/-- C8 counterexample: the claim fails on an empty value buffer.  With
`src` of shape (1, 0) and the one-entry index buffer holding the group id
5, `scatter_sum(src, index, 0, dim_size=3)` succeeds and returns a (3, 0)
buffer even though 5 is out of bounds for `dim_size` 3: the index entry is
silently dropped because the broadcast index is empty, so no IndexError is
raised. -/
theorem scatter_oob_counterexample :
    idx5T.data [0] = 5 ∧ (3 : ℚ) ≤ idx5T.data [0] ∧
    exOk (scatter_sum srcE8 idx5T 0 none (some 3)) = true ∧
    exShape (scatter_sum srcE8 idx5T 0 none (some 3)) = some [3, 0] := by
  refine ⟨rfl, by norm_num [idx5T], ?_, ?_⟩ <;> decide

/-- C8 amended: with an explicit `dim_size`, a group id that is negative or
at least `dim_size` makes the reduction fail with an IndexError - no
element is clamped or dropped and no output is produced - provided every
extent of the value buffer is positive, so that the index entries are
actually consumed; when the value buffer is empty the broadcast index is
empty, nothing is consumed, and an empty output is returned without
error. -/
theorem scatter_oob_amended (src idx : Tensor) (dim : Int) (d dsz : Nat)
    (hres : resolveDim dim src.shape.length = Except.ok d)
    (hsh : idx.shape = [src.shape.getD d 0])
    (hpos : ∀ a, a < src.shape.length → 0 < src.shape.getD a 0)
    (hbad : ∃ k, k < src.shape.getD d 0 ∧
      ∃ z : Int, idx.data [k] = (z : ℚ) ∧ (z < 0 ∨ (dsz : Int) ≤ z)) :
    ∃ s, scatter_sum src idx dim none (some dsz) = Except.error s :=
  scatter_sum_oob src idx dim d dsz hres hsh hpos hbad

/-- Witness: the 1-D buffer (1, 2) with group index (0, 5) and `dim_size`
3 fails with an IndexError, since the entry 5 is out of bounds. -/
theorem scatter_oob_amended_witness :
    ∃ s, scatter_sum srcW8 idxW8 0 none (some 3) = Except.error s := by
  refine scatter_oob_amended srcW8 idxW8 0 0 3 rfl rfl ?_ ?_
  · intro a ha
    have : a < 1 := ha
    interval_cases a
    · norm_num [srcW8, vec]
  · exact ⟨1, by norm_num [srcW8, vec], 5, by norm_num [idxW8, vec], Or.inr (by norm_num)⟩

theorem foldl_max_spec : ∀ (t : List ℚ) (a : ℚ),
    (t.foldl max a = a ∨ t.foldl max a ∈ t) ∧ a ≤ t.foldl max a ∧
    ∀ x ∈ t, x ≤ t.foldl max a
  | [], a => ⟨Or.inl rfl, le_refl a, by simp⟩
  | b :: t, a => by
      simp only [List.foldl_cons]
      have IH := foldl_max_spec t (max a b)
      refine ⟨?_, le_trans (le_max_left a b) IH.2.1, ?_⟩
      · rcases IH.1 with h | h
        · rcases max_choice a b with hc | hc
          · left; rw [h, hc]
          · right; rw [h, hc]; exact List.mem_cons_self _ _
        · right; exact List.mem_cons_of_mem _ h
      · intro x hx
        rcases List.mem_cons.mp hx with rfl | hx
        · exact le_trans (le_max_right a x) IH.2.1
        · exact IH.2.2 x hx

theorem qMax_spec {l : List ℚ} (h : l ≠ []) :
    ∃ m, qMax l = some m ∧ m ∈ l ∧ ∀ x ∈ l, x ≤ m := by
  match l, h with
  | a :: t, _ =>
    have hs := foldl_max_spec t a
    refine ⟨t.foldl max a, rfl, ?_, ?_⟩
    · rcases hs.1 with h | h
      · rw [h]; exact List.mem_cons_self _ _
      · exact List.mem_cons_of_mem _ h
    · intro x hx
      rcases List.mem_cons.mp hx with rfl | hx
      · exact hs.2.1
      · exact hs.2.2 x hx

theorem mem_allIdx_singleton {E : Nat} {p : List Nat} :
    p ∈ allIdx [E] ↔ ∃ k, k < E ∧ p = [k] := by
  rw [mem_allIdx]
  constructor
  · rintro ⟨hl, hc⟩
    refine ⟨p.getD 0 0, ?_, eq_singleton_of_length_one (by simpa using hl)⟩
    simpa using hc 0 (by simp)
  · rintro ⟨k, hk, rfl⟩
    refine ⟨rfl, ?_⟩
    intro i hi
    have hi0 : i = 0 := by simpa using hi
    subst hi0
    simpa using hk

theorem allIdx_eq_nil_of_prod_zero {s : List Nat} (h : s.prod = 0) :
    allIdx s = [] := by
  rw [List.eq_nil_iff_forall_not_mem]
  intro p hp
  have h0 : (0 : Nat) ∈ s := List.prod_eq_zero_iff.mp h
  obtain ⟨i, hi, hgi⟩ := List.mem_iff_getElem.mp h0
  have hlt := getD_lt_of_mem_allIdx hp hi
  have hs : s.getD i 0 = 0 := by
    rw [List.getD_eq_getElem?_getD, List.getElem?_eq_getElem hi, hgi]
    rfl
  rw [hs] at hlt
  exact Nat.not_lt_zero _ hlt

theorem extent_pos_of_prod_pos {s : List Nat} (h : 0 < s.prod) :
    ∀ a, a < s.length → 0 < s.getD a 0 := by
  intro a ha
  rcases Nat.eq_zero_or_pos (s.getD a 0) with h0 | h0
  · exfalso
    rw [List.getD_eq_getElem?_getD, List.getElem?_eq_getElem ha] at h0
    simp at h0
    have : (0 : Nat) ∈ s := h0 ▸ List.getElem_mem ha
    rw [List.prod_eq_zero_iff.mpr this] at h
    exact Nat.lt_irrefl 0 h
  · exact h0

theorem zeros_mem_allIdx {s : List Nat} (h : ∀ a, a < s.length → 0 < s.getD a 0) :
    s.map (fun _ => 0) ∈ allIdx s := by
  rw [mem_allIdx]
  refine ⟨List.length_map _ _, ?_⟩
  intro i hi
  have hz : (s.map (fun _ => 0)).getD i 0 = 0 := by
    rw [List.getD_eq_getElem?_getD, List.getElem?_map]
    cases s[i]? <;> simp
  rw [hz]
  exact h i hi

theorem qMax_toList_broadcast (src idx I : Tensor) (d : Nat)
    (hIsh : I.shape = src.shape)
    (hIdata : ∀ p : List Nat, p.getD d 0 < src.shape.getD d 0 →
      I.data p = idx.data [p.getD d 0])
    (hsh : idx.shape = [src.shape.getD d 0])
    (hdn : d < src.shape.length)
    (hpos : 0 < src.numel) :
    qMax I.toList = qMax idx.toList := by
  have hposall := extent_pos_of_prod_pos hpos
  have hE : 0 < src.shape.getD d 0 := hposall d hdn
  have hInil : I.toList ≠ [] := by
    unfold Tensor.toList
    rw [hIsh]
    intro hcon
    have := zeros_mem_allIdx hposall
    rw [List.eq_nil_iff_forall_not_mem] at hcon
    exact hcon _ (List.mem_map_of_mem _ this)
  have hXnil : idx.toList ≠ [] := by
    unfold Tensor.toList
    rw [hsh]
    intro hcon
    have h0 : [0] ∈ allIdx [src.shape.getD d 0] :=
      mem_allIdx_singleton.mpr ⟨0, hE, rfl⟩
    rw [List.eq_nil_iff_forall_not_mem] at hcon
    exact hcon _ (List.mem_map_of_mem _ h0)
  obtain ⟨mI, hmI, hmImem, hmIub⟩ := qMax_spec hInil
  obtain ⟨mX, hmX, hmXmem, hmXub⟩ := qMax_spec hXnil
  have hIX : mI ≤ mX := by
    unfold Tensor.toList at hmImem
    rw [hIsh] at hmImem
    obtain ⟨p, hp, hpv⟩ := List.mem_map.mp hmImem
    have hpd : p.getD d 0 < src.shape.getD d 0 := getD_lt_of_mem_allIdx hp hdn
    have : mI = idx.data [p.getD d 0] := by rw [← hpv, hIdata p hpd]
    rw [this]
    apply hmXub
    unfold Tensor.toList
    rw [hsh]
    exact List.mem_map_of_mem _ (mem_allIdx_singleton.mpr ⟨p.getD d 0, hpd, rfl⟩)
  have hXI : mX ≤ mI := by
    unfold Tensor.toList at hmXmem
    rw [hsh] at hmXmem
    obtain ⟨q, hq, hqv⟩ := List.mem_map.mp hmXmem
    obtain ⟨k, hk, rfl⟩ := mem_allIdx_singleton.mp hq
    have hp0 : (src.shape.map (fun _ => 0)).set d k ∈ allIdx src.shape := by
      rw [mem_allIdx]
      refine ⟨by rw [List.length_set, List.length_map], ?_⟩
      intro i hi
      by_cases hid : i = d
      · subst hid
        rw [getD_set_self _ _ _ (by rw [List.length_map]; exact hdn)]
        exact hk
      · rw [getD_set_ne _ _ _ _ hid]
        have hz : (src.shape.map (fun _ => 0)).getD i 0 = 0 := by
          rw [List.getD_eq_getElem?_getD, List.getElem?_map]
          cases src.shape[i]? <;> simp
        rw [hz]
        exact hposall i hi
    have hgd : ((src.shape.map (fun _ => 0)).set d k).getD d 0 = k :=
      getD_set_self _ _ _ (by rw [List.length_map]; exact hdn)
    have : mX = I.data ((src.shape.map (fun _ => 0)).set d k) := by
      rw [hIdata _ (by rw [hgd]; exact hk), hgd, hqv]
    rw [this]
    apply hmIub
    unfold Tensor.toList
    rw [hIsh]
    exact List.mem_map_of_mem _ hp0
  rw [hmI, hmX, le_antisymm hIX hXI]

theorem scatterAddInto_ok_shape {o index src : Tensor} {d : Nat} {t : Tensor}
    (h : scatterAddInto o index src d = Except.ok t) :
    t.shape = o.shape ∧ t.fl = o.fl := by
  unfold scatterAddInto at h
  split at h
  · cases hf : scatFold src index d (o.shape.getD d 0) (fun s v _ => s + v) o.data with
    | ok st =>
        rw [hf] at h
        cases h
        exact ⟨rfl, rfl⟩
    | error e =>
        rw [hf] at h
        cases h
  · cases h

theorem scatter_sum_none_ok_shape {src idx : Tensor} {dim : Int}
    {dsos : Option Nat} {t : Tensor}
    (h : scatter_sum src idx dim none dsos = Except.ok t) :
    ∃ I d, broadcast idx src dim = Except.ok I ∧
      resolveDim dim src.shape.length = Except.ok d ∧
      t.shape = src.shape.set d (autoDimSize I dsos).toNat := by
  unfold scatter_sum at h
  cases hbr : broadcast idx src dim with
  | error e => rw [hbr, err_bind] at h; cases h
  | ok I =>
      rw [hbr, ok_bind] at h
      simp only [] at h
      cases hrd : resolveDim dim src.shape.length with
      | error e => rw [hrd, err_bind] at h; cases h
      | ok d =>
          rw [hrd, ok_bind] at h
          by_cases hsz : (0 : Int) ≤ autoDimSize I dsos
          · rw [if_pos hsz] at h
            exact ⟨I, d, rfl, rfl, (scatterAddInto_ok_shape h).1⟩
          · rw [if_neg hsz] at h; cases h

/-- C2 counterexample: the claim fails when the value buffer is empty but
the index buffer is not.  With an empty 1-D value buffer and the one-entry
index (5), no `dim_size` given, the output extent at the scatter axis is 0,
not `max(index)+1 = 6`: the code tests emptiness of the index only after
broadcasting it against the value buffer. -/
theorem scatter_shape_counterexample :
    Tensor.toList idx5T = [(5 : ℚ)] ∧
    exShape (scatter_sum src0T idx5T 0 none none) = some [0] ∧
    ¬ exShape (scatter_sum src0T idx5T 0 none none) = some [6] := by
  refine ⟨?_, ?_, ?_⟩ <;> decide

/-- C2 amended: for a successful segment reduction with `out` omitted, the
output keeps the value buffer's rank and extents except at the (resolved)
axis `dim`, where the extent is `dim_size` when supplied; when `dim_size`
is omitted the extent is `0` whenever the index broadcast against the value
buffer is empty - equivalently, whenever the value buffer itself is empty -
and `max(index)+1` otherwise. -/
theorem scatter_sum_shape_amended (src idx : Tensor) (dim : Int) (d : Nat)
    (hres : resolveDim dim src.shape.length = Except.ok d)
    (hsh : idx.shape = [src.shape.getD d 0])
    (hint : ∀ k, k < src.shape.getD d 0 →
      ∃ z : Int, idx.data [k] = (z : ℚ) ∧ 0 ≤ z) :
    (∀ n t, scatter_sum src idx dim none (some n) = Except.ok t →
      t.shape = src.shape.set d n) ∧
    (src.numel = 0 → ∃ t, scatter_sum src idx dim none none = Except.ok t ∧
      t.shape = src.shape.set d 0) ∧
    (0 < src.numel → ∃ t z, scatter_sum src idx dim none none = Except.ok t ∧
      0 ≤ z ∧ qMax idx.toList = some ((z : Int) : ℚ) ∧
      t.shape = src.shape.set d (z + 1).toNat) := by
  have hdn : d < src.shape.length := (resolveDim_ok hres).2
  obtain ⟨I, hIok, hIsh, hIfl, hIdata⟩ := broadcast_oneD idx src dim d hres hsh
  have hpre : ∀ dsz : Nat, I.shape = src.shape ∧
      (src.shape.set d dsz).length = src.shape.length ∧
      ∀ a ∈ List.range src.shape.length,
        a = d ∨ src.shape.getD a 0 ≤ (src.shape.set d dsz).getD a 0 := by
    intro dsz
    refine ⟨hIsh, List.length_set _ _ _, ?_⟩
    intro a _
    by_cases had : a = d
    · left; exact had
    · right; rw [getD_set_ne _ _ _ _ had]
  refine ⟨?_, ?_, ?_⟩
  · intro n t h
    obtain ⟨I', d', hbr, hrd, hshape⟩ := scatter_sum_none_ok_shape h
    have hds : Except.ok d' = Except.ok d := hrd.symm.trans hres
    have hIeq : Except.ok I' = Except.ok I := hbr.symm.trans hIok
    cases hds
    cases hIeq
    exact hshape
  · intro h0
    have hnil : allIdx src.shape = [] := allIdx_eq_nil_of_prod_zero h0
    have hInum : I.numel = 0 := by unfold Tensor.numel; rw [hIsh]; exact h0
    have hauto : autoDimSize I none = 0 := by
      unfold autoDimSize
      rw [if_pos hInum]
    obtain ⟨st, hfold, _⟩ := scatFold_ok src I d ((src.shape.set d 0).getD d 0)
      (fun s v _ => s + v) (fun _ => (0 : ℚ))
      (fun j hj => by rw [hnil] at hj; cases hj)
    have hadd : scatterAddInto
        { shape := src.shape.set d 0, fl := src.fl, data := fun _ => 0 } I src d =
        Except.ok { shape := src.shape.set d 0, fl := src.fl, data := st } := by
      unfold scatterAddInto
      rw [if_pos (hpre 0)]
      dsimp only
      rw [hfold]
      rfl
    refine ⟨{ shape := src.shape.set d 0, fl := src.fl, data := st }, ?_, rfl⟩
    unfold scatter_sum
    rw [hIok, ok_bind]
    simp only []
    rw [hres, ok_bind]
    rw [if_pos (by rw [hauto])]
    rw [hauto]
    exact hadd
  · intro hposn
    have hposall := extent_pos_of_prod_pos hposn
    have hE : 0 < src.shape.getD d 0 := hposall d hdn
    have hXnil : idx.toList ≠ [] := by
      unfold Tensor.toList
      rw [hsh]
      intro hcon
      rw [List.eq_nil_iff_forall_not_mem] at hcon
      exact hcon _ (List.mem_map_of_mem _ (mem_allIdx_singleton.mpr ⟨0, hE, rfl⟩))
    obtain ⟨m, hmq, hmmem, hmub⟩ := qMax_spec hXnil
    have hmmem' : m ∈ (allIdx [src.shape.getD d 0]).map idx.data := by
      unfold Tensor.toList at hmmem
      rw [hsh] at hmmem
      exact hmmem
    obtain ⟨q, hq, hqv⟩ := List.mem_map.mp hmmem'
    obtain ⟨k0, hk0, rfl⟩ := mem_allIdx_singleton.mp hq
    obtain ⟨z0, hz0v, hz00⟩ := hint k0 hk0
    have hmz : m = ((z0 : Int) : ℚ) := by rw [← hqv, hz0v]
    have hqI : qMax I.toList = some m := by
      rw [qMax_toList_broadcast src idx I d hIsh hIdata hsh hdn hposn, hmq]
    have hInum : ¬ I.numel = 0 := by
      unfold Tensor.numel
      rw [hIsh]
      have hp : 0 < src.shape.prod := hposn
      omega
    have hauto : autoDimSize I none = z0 + 1 := by
      unfold autoDimSize
      rw [if_neg hInum, hqI]
      show ⌊m⌋ + 1 = z0 + 1
      rw [hmz, Int.floor_intCast]
    have hbnd : ∀ j ∈ allIdx src.shape,
        scatInBounds I ((src.shape.set d (z0 + 1).toNat).getD d 0) j := by
      intro j hj
      have hjd := getD_lt_of_mem_allIdx hj hdn
      obtain ⟨z, hz, hz0'⟩ := hint _ hjd
      have hIj : I.data j = (z : ℚ) := by rw [hIdata j hjd, hz]
      have hzle : z ≤ z0 := by
        have hmem : idx.data [j.getD d 0] ∈ idx.toList := by
          unfold Tensor.toList
          rw [hsh]
          exact List.mem_map_of_mem _ (mem_allIdx_singleton.mpr ⟨_, hjd, rfl⟩)
        have hle := hmub _ hmem
        rw [hz, hmz] at hle
        exact_mod_cast hle
      have hgetd : (src.shape.set d (z0 + 1).toNat).getD d 0 = (z0 + 1).toNat :=
        getD_set_self _ _ _ hdn
      constructor
      · rw [hIj, Int.floor_intCast]
        exact hz0'
      · rw [hIj, Int.floor_intCast, hgetd]
        omega
    obtain ⟨st, hfold, _⟩ := scatFold_ok src I d
      ((src.shape.set d (z0 + 1).toNat).getD d 0)
      (fun s v _ => s + v) (fun _ => (0 : ℚ)) hbnd
    have hadd : scatterAddInto
        { shape := src.shape.set d (z0 + 1).toNat, fl := src.fl, data := fun _ => 0 }
          I src d =
        Except.ok
          { shape := src.shape.set d (z0 + 1).toNat, fl := src.fl, data := st } := by
      unfold scatterAddInto
      rw [if_pos (hpre (z0 + 1).toNat)]
      dsimp only
      rw [hfold]
      rfl
    refine ⟨{ shape := src.shape.set d (z0 + 1).toNat, fl := src.fl, data := st },
      z0, ?_, hz00, by rw [hmq, hmz], rfl⟩
    unfold scatter_sum
    rw [hIok, ok_bind]
    simp only []
    rw [hres, ok_bind]
    rw [if_pos (by rw [hauto]; omega)]
    rw [hauto]
    exact hadd

/-- Witness: the (3, 2) value buffer with group index (0, 0, 1): with
`dim_size` 4 supplied, the output shape is (4, 2); with `dim_size` omitted
the output shape is (max(index)+1, 2) = (2, 2). -/
theorem scatter_sum_shape_amended_witness :
    (∀ t, scatter_sum srcW1 idxW1 0 none (some 4) = Except.ok t →
      t.shape = [4, 2]) ∧
    (∃ t z, scatter_sum srcW1 idxW1 0 none none = Except.ok t ∧
      0 ≤ z ∧ qMax idxW1.toList = some ((z : Int) : ℚ) ∧
      t.shape = [3, 2].set 0 (z + 1).toNat) := by
  have h := scatter_sum_shape_amended srcW1 idxW1 0 0 rfl rfl
    (by
      intro k hk
      have hk3 : k < 3 := hk
      interval_cases k
      · exact ⟨0, by norm_num [idxW1, vec], by norm_num⟩
      · exact ⟨0, by norm_num [idxW1, vec], by norm_num⟩
      · exact ⟨1, by norm_num [idxW1, vec], by norm_num⟩)
  exact ⟨fun t ht => h.1 4 t ht, h.2.2 (by norm_num [srcW1, mat, Tensor.numel])⟩

theorem meanIndexDim_oneD {dim : Int} {n d : Nat} (h : pyDim dim n = (d : Int)) :
    meanIndexDim n 1 dim = 0 := by
  unfold meanIndexDim
  rw [pyDim] at h
  rw [h]
  split
  · norm_num
  · next hd => omega

/-- C3: for every value buffer and parallel 1-D group index with in-bounds
entries, `scatter_mean` at a slot of group `g` equals the per-group sum
divided by the per-group row count - true division for floating-point
buffers, floor division otherwise - when the count is positive, and equals
zero when the count is zero, because the zero count is clamped to 1 before
dividing. -/
theorem scatter_mean_group_correct (src idx : Tensor) (dim : Int) (d dsz : Nat)
    (hres : resolveDim dim src.shape.length = Except.ok d)
    (hsh : idx.shape = [src.shape.getD d 0])
    (hint : ∀ k, k < src.shape.getD d 0 →
      ∃ z : Int, idx.data [k] = (z : ℚ) ∧ 0 ≤ z ∧ z < (dsz : Int)) :
    ∃ t, scatter_mean src idx dim none (some dsz) = Except.ok t ∧
      t.shape = src.shape.set d dsz ∧
      ∀ p ∈ allIdx (src.shape.set d dsz),
        t.data p =
          (if ((Finset.range (src.shape.getD d 0)).filter
              (fun k => idx.data [k] = ((p.getD d 0 : Nat) : ℚ))).card = 0 then 0
           else if src.fl then
             (∑ k ∈ (Finset.range (src.shape.getD d 0)).filter
                 (fun k => idx.data [k] = ((p.getD d 0 : Nat) : ℚ)),
               src.data (p.set d k)) /
             ((((Finset.range (src.shape.getD d 0)).filter
                 (fun k => idx.data [k] = ((p.getD d 0 : Nat) : ℚ))).card : Nat) : ℚ)
           else
             ((⌊(∑ k ∈ (Finset.range (src.shape.getD d 0)).filter
                 (fun k => idx.data [k] = ((p.getD d 0 : Nat) : ℚ)),
               src.data (p.set d k)) /
             ((((Finset.range (src.shape.getD d 0)).filter
                 (fun k => idx.data [k] = ((p.getD d 0 : Nat) : ℚ))).card : Nat) : ℚ)⌋ :
               Int) : ℚ)) := by
  have hdn : d < src.shape.length := (resolveDim_ok hres).2
  obtain ⟨o, hok, hosh, hofl, hodata⟩ := scatter_sum_rows src idx dim d dsz hres hsh hint
  have holen : o.shape.length = src.shape.length := by rw [hosh, List.length_set]
  have hres2 : resolveDim dim o.shape.length = Except.ok d := by rw [holen]; exact hres
  have hdszeq : o.shape.getD d 0 = dsz := by
    rw [hosh]
    exact getD_set_self _ _ _ hdn
  have hEeq : idx.shape.getD 0 0 = src.shape.getD d 0 := by rw [hsh]; rfl
  have hmid : meanIndexDim src.shape.length idx.shape.length dim = 0 := by
    rw [hsh]
    exact meanIndexDim_oneD (resolveDim_ok hres).1
  have hres_c : resolveDim 0 (onesLike idx.shape src.fl).shape.length = Except.ok 0 := by
    show resolveDim 0 idx.shape.length = Except.ok 0
    rw [hsh]
    rfl
  have hsh_c : idx.shape = [(onesLike idx.shape src.fl).shape.getD 0 0] := by
    show idx.shape = [idx.shape.getD 0 0]
    rw [hsh]
    rfl
  have hint_c : ∀ k, k < (onesLike idx.shape src.fl).shape.getD 0 0 →
      ∃ z : Int, idx.data [k] = (z : ℚ) ∧ 0 ≤ z ∧ z < (dsz : Int) := by
    intro k hk
    exact hint k (hEeq ▸ hk)
  obtain ⟨c, hcok, hcsh, hcfl, hcdata⟩ :=
    scatter_sum_rows (onesLike idx.shape src.fl) idx 0 0 dsz hres_c hsh_c hint_c
  have hcsh' : c.shape = [dsz] := by
    rw [hcsh]
    show idx.shape.set 0 dsz = [dsz]
    rw [hsh]
    rfl
  have hcount : ∀ g, g < dsz → c.data [g] =
      (((Finset.range (src.shape.getD d 0)).filter
        (fun k => idx.data [k] = ((g : Nat) : ℚ))).card : ℚ) := by
    intro g hg
    have hmem : [g] ∈ allIdx ((onesLike idx.shape src.fl).shape.set 0 dsz) := by
      show [g] ∈ allIdx (idx.shape.set 0 dsz)
      rw [hsh]
      exact mem_allIdx_singleton.mpr ⟨g, hg, rfl⟩
    have hval := hcdata [g] hmem
    rw [hval]
    have hrange : (onesLike idx.shape src.fl).shape.getD 0 0 = src.shape.getD d 0 := hEeq
    rw [hrange]
    simp only [onesLike]
    rw [Finset.sum_const, nsmul_eq_mul, mul_one]
    rfl
  have hsh_b : (⟨c.shape, c.fl,
      fun p => if c.data p < 1 then 1 else c.data p⟩ : Tensor).shape =
      [o.shape.getD d 0] := by
    show c.shape = [o.shape.getD d 0]
    rw [hcsh', hdszeq]
  obtain ⟨CB, hCBok, hCBsh, hCBfl, hCBdata⟩ :=
    broadcast_oneD ⟨c.shape, c.fl, fun p => if c.data p < 1 then 1 else c.data p⟩
      o dim d hres2 hsh_b
  have hmain : scatter_mean src idx dim none (some dsz) = Except.ok
      { shape := o.shape, fl := o.fl,
        data := fun p => if o.fl then o.data p / CB.data p
          else ((⌊o.data p / CB.data p⌋ : Int) : ℚ) } := by
    unfold scatter_mean
    rw [hok, ok_bind]
    simp only []
    rw [hres2, ok_bind]
    rw [hdszeq, hmid, hcok, ok_bind]
    rw [hCBok, ok_bind]
  refine ⟨_, hmain, hosh, ?_⟩
  intro p hp
  have hpd : p.getD d 0 < dsz := by
    have := getD_lt_of_mem_allIdx hp (by rw [List.length_set]; exact hdn)
    rwa [getD_set_self _ _ _ hdn] at this
  have hCB : CB.data p =
      (if ((((Finset.range (src.shape.getD d 0)).filter
          (fun k => idx.data [k] = ((p.getD d 0 : Nat) : ℚ))).card : Nat) : ℚ) < 1
       then 1
       else ((((Finset.range (src.shape.getD d 0)).filter
          (fun k => idx.data [k] = ((p.getD d 0 : Nat) : ℚ))).card : Nat) : ℚ)) := by
    rw [hCBdata p (by rw [hdszeq]; exact hpd)]
    show (if c.data [p.getD d 0] < 1 then 1 else c.data [p.getD d 0]) = _
    rw [hcount (p.getD d 0) hpd]
  have hS := hodata p hp
  show (if o.fl then o.data p / CB.data p else ((⌊o.data p / CB.data p⌋ : Int) : ℚ)) = _
  rw [hofl, hS, hCB]
  by_cases hc : ((Finset.range (src.shape.getD d 0)).filter
      (fun k => idx.data [k] = ((p.getD d 0 : Nat) : ℚ))).card = 0
  · rw [if_pos hc, Finset.card_eq_zero.mp hc]
    simp
  · rw [if_neg hc]
    have h1 : ¬ ((((Finset.range (src.shape.getD d 0)).filter
        (fun k => idx.data [k] = ((p.getD d 0 : Nat) : ℚ))).card : Nat) : ℚ) < 1 := by
      push_neg
      exact_mod_cast Nat.one_le_iff_ne_zero.mpr hc
    rw [if_neg h1]

set_option maxRecDepth 4000 in
/-- Witness: the floating-point (3, 2) buffer with rows (1,2), (3,4), (5,6)
and group index (0, 0, 1): group 0 holds two rows with mean row (2, 3),
group 1 holds one row (5, 6). -/
theorem scatter_mean_group_correct_witness :
    ∃ t, scatter_mean srcW1 idxW1 0 none (some 2) = Except.ok t ∧
      t.data [0, 0] = 2 ∧ t.data [0, 1] = 3 ∧ t.data [1, 1] = 6 := by
  obtain ⟨t, hok, _, hdata⟩ := scatter_mean_group_correct srcW1 idxW1 0 0 2
    rfl rfl
    (by
      intro k hk
      have hk3 : k < 3 := hk
      interval_cases k
      · exact ⟨0, by norm_num [idxW1, vec], by norm_num, by norm_num⟩
      · exact ⟨0, by norm_num [idxW1, vec], by norm_num, by norm_num⟩
      · exact ⟨1, by norm_num [idxW1, vec], by norm_num, by norm_num⟩)
  have hf0 : (Finset.range (srcW1.shape.getD 0 0)).filter
      (fun k => idxW1.data [k] = ((([0, 0] : List Nat).getD 0 0 : Nat) : ℚ)) = {0, 1} := by
    rw [Finset.ext_iff]
    intro k
    simp only [Finset.mem_filter, Finset.mem_range, Finset.mem_insert, Finset.mem_singleton]
    constructor
    · rintro ⟨hk, hv⟩
      have hk3 : k < 3 := hk
      interval_cases k
      · left; rfl
      · right; rfl
      · exfalso; norm_num [idxW1, vec] at hv
    · rintro (rfl | rfl)
      · exact ⟨by norm_num [srcW1, mat], by norm_num [idxW1, vec]⟩
      · exact ⟨by norm_num [srcW1, mat], by norm_num [idxW1, vec]⟩
  have hf1 : (Finset.range (srcW1.shape.getD 0 0)).filter
      (fun k => idxW1.data [k] = ((([1, 1] : List Nat).getD 0 0 : Nat) : ℚ)) = {2} := by
    rw [Finset.ext_iff]
    intro k
    simp only [Finset.mem_filter, Finset.mem_range, Finset.mem_singleton]
    constructor
    · rintro ⟨hk, hv⟩
      have hk3 : k < 3 := hk
      interval_cases k
      · exfalso; norm_num [idxW1, vec] at hv
      · exfalso; norm_num [idxW1, vec] at hv
      · rfl
    · rintro rfl
      exact ⟨by norm_num [srcW1, mat], by norm_num [idxW1, vec]⟩
  refine ⟨t, hok, ?_, ?_, ?_⟩
  · rw [hdata [0, 0] (by decide), hf0]
    norm_num [srcW1, mat, Finset.sum_insert, Finset.sum_singleton]
  · rw [hdata [0, 1] (by decide)]
    rw [show (Finset.range (srcW1.shape.getD 0 0)).filter
        (fun k => idxW1.data [k] = ((([0, 1] : List Nat).getD 0 0 : Nat) : ℚ)) = ({0, 1} : Finset Nat)
      from hf0]
    norm_num [srcW1, mat, Finset.sum_insert, Finset.sum_singleton]
  · rw [hdata [1, 1] (by decide), hf1]
    norm_num [srcW1, mat, Finset.sum_singleton]

theorem extFold_go (better : ℚ → ℚ → Bool)
    (hirr : ∀ w, better w w = false)
    (hbt1 : ∀ v w w', better v w = true → better v w' = false → better w w' = false)
    (hbt2 : ∀ u w w', better u w = false → better w w' = false → better u w' = false)
    (f : List Nat → ℚ) (g : List Nat → Nat) :
    ∀ (l : List (List Nat)) (w : ℚ) (a : Nat),
      ∃ w' a',
        l.foldl (fun s j => extStep better s (f j) (g j)) (some (w, a)) = some (w', a') ∧
        ((w' = w ∧ a' = a) ∨ ∃ j ∈ l, w' = f j ∧ a' = g j) ∧
        better w w' = false ∧
        ∀ j ∈ l, better (f j) w' = false
  | [], w, a => ⟨w, a, rfl, Or.inl ⟨rfl, rfl⟩, hirr w, by simp⟩
  | j :: tl, w, a => by
      simp only [List.foldl_cons]
      by_cases hb : better (f j) w = true
      · have hstep : extStep better (some (w, a)) (f j) (g j) = some (f j, g j) := by
          simp [extStep, hb]
        rw [hstep]
        obtain ⟨w', a', hfold, hsrc, hww, hall⟩ :=
          extFold_go better hirr hbt1 hbt2 f g tl (f j) (g j)
        refine ⟨w', a', hfold, ?_, ?_, ?_⟩
        · rcases hsrc with ⟨h1, h2⟩ | ⟨j', hj', h1, h2⟩
          · right; exact ⟨j, List.mem_cons_self _ _, h1, h2⟩
          · right; exact ⟨j', List.mem_cons_of_mem _ hj', h1, h2⟩
        · exact hbt1 (f j) w w' hb hww
        · intro x hx
          rcases List.mem_cons.mp hx with rfl | hx
          · exact hww
          · exact hall x hx
      · have hb' : better (f j) w = false := by
          cases hbb : better (f j) w
          · rfl
          · exact absurd hbb hb
        have hstep : extStep better (some (w, a)) (f j) (g j) = some (w, a) := by
          simp [extStep, hb']
        rw [hstep]
        obtain ⟨w', a', hfold, hsrc, hww, hall⟩ :=
          extFold_go better hirr hbt1 hbt2 f g tl w a
        refine ⟨w', a', hfold, ?_, hww, ?_⟩
        · rcases hsrc with h | ⟨j', hj', h1, h2⟩
          · left; exact h
          · right; exact ⟨j', List.mem_cons_of_mem _ hj', h1, h2⟩
        · intro x hx
          rcases List.mem_cons.mp hx with rfl | hx
          · exact hbt2 (f x) w w' hb' hww
          · exact hall x hx

theorem scatterExtreme_rows (better : ℚ → ℚ → Bool)
    (hirr : ∀ w, better w w = false)
    (hbt1 : ∀ v w w', better v w = true → better v w' = false → better w w' = false)
    (hbt2 : ∀ u w w', better u w = false → better w w' = false → better u w' = false)
    (src idx : Tensor) (dim : Int) (d dsz : Nat)
    (hres : resolveDim dim src.shape.length = Except.ok d)
    (hsh : idx.shape = [src.shape.getD d 0])
    (hint : ∀ k, k < src.shape.getD d 0 →
      ∃ z : Int, idx.data [k] = (z : ℚ) ∧ 0 ≤ z ∧ z < (dsz : Int)) :
    ∃ tv ta, scatterExtreme better src idx dim none (some dsz) = Except.ok (tv, ta) ∧
      tv.shape = src.shape.set d dsz ∧ ta.shape = tv.shape ∧
      ∀ p ∈ allIdx (src.shape.set d dsz),
        (∃ k, k < src.shape.getD d 0 ∧ idx.data [k] = ((p.getD d 0 : Nat) : ℚ)) →
        ∃ a, a < src.shape.getD d 0 ∧ idx.data [a] = ((p.getD d 0 : Nat) : ℚ) ∧
          ta.data p = ((a : Nat) : ℚ) ∧ src.data (p.set d a) = tv.data p ∧
          ∀ k, k < src.shape.getD d 0 → idx.data [k] = ((p.getD d 0 : Nat) : ℚ) →
            better (src.data (p.set d k)) (tv.data p) = false := by
  have hdn : d < src.shape.length := (resolveDim_ok hres).2
  obtain ⟨I, hIok, hIsh, hIfl, hIdata⟩ := broadcast_oneD idx src dim d hres hsh
  have hbnd : ∀ j ∈ allIdx src.shape, scatInBounds I dsz j := by
    intro j hj
    have hjd : j.getD d 0 < src.shape.getD d 0 := getD_lt_of_mem_allIdx hj hdn
    obtain ⟨z, hz, hz0, hzd⟩ := hint _ hjd
    have hIj : I.data j = (z : ℚ) := by rw [hIdata j hjd]; exact hz
    constructor
    · rw [hIj, Int.floor_intCast]; exact hz0
    · rw [hIj, Int.floor_intCast]; omega
  obtain ⟨st, hfold, hstval⟩ :=
    scatFold_ok src I d dsz (extStep better) (fun _ => none) hbnd
  have hmain : scatterExtreme better src idx dim none (some dsz) = Except.ok
      ({ shape := src.shape.set d dsz, fl := src.fl,
         data := fun p => match st p with | some x => x.1 | none => 0 },
       { shape := src.shape.set d dsz, fl := false,
         data := fun p => match st p with | some x => ((x.2 : Nat) : ℚ) | none => 0 }) := by
    unfold scatterExtreme
    rw [hIok, ok_bind]
    simp only []
    rw [hres, ok_bind]
    rw [if_pos (show (0 : Int) ≤ autoDimSize I (some dsz) from Int.natCast_nonneg dsz)]
    rw [show (autoDimSize I (some dsz)).toNat = dsz from rfl]
    rw [hfold, ok_bind]
  refine ⟨_, _, hmain, rfl, rfl, ?_⟩
  intro p hp hex
  have hplen : p.length = src.shape.length := by
    have := length_of_mem_allIdx hp
    rwa [List.length_set] at this
  have hdp : d < p.length := by rw [hplen]; exact hdn
  have hmemA : ∀ j, j ∈ allIdx src.shape → scatTarget I d j = p →
      j.getD d 0 < src.shape.getD d 0 ∧
      idx.data [j.getD d 0] = ((p.getD d 0 : Nat) : ℚ) ∧
      p.set d (j.getD d 0) = j := by
    intro j hj htgt
    have hjlen := length_of_mem_allIdx hj
    have hjd : j.getD d 0 < src.shape.getD d 0 := getD_lt_of_mem_allIdx hj hdn
    obtain ⟨z, hz, hz0, hzlt⟩ := hint _ hjd
    have hIj : I.data j = (z : ℚ) := by rw [hIdata j hjd]; exact hz
    have htgt' : j.set d z.toNat = p := by
      rw [← htgt, scatTarget, hIj, Int.floor_intCast]
    have hpdz : p.getD d 0 = z.toNat := by
      rw [← htgt', getD_set_self _ _ _ (by omega)]
    refine ⟨hjd, ?_, ?_⟩
    · rw [hz, hpdz]
      exact_mod_cast (congrArg (fun w : Int => (w : ℚ)) (Int.toNat_of_nonneg hz0)).symm
    · rw [← htgt', List.set_set]
      exact set_getD_self _ _ (by omega)
  have hmemB : ∀ k, k < src.shape.getD d 0 →
      idx.data [k] = ((p.getD d 0 : Nat) : ℚ) →
      p.set d k ∈ (allIdx src.shape).filter (fun j => scatTarget I d j = p) := by
    intro k hk hke
    have hmem : p.set d k ∈ allIdx src.shape := by
      rw [mem_allIdx]
      constructor
      · rw [List.length_set, hplen]
      · intro i hi
        by_cases hid : i = d
        · subst hid
          rw [getD_set_self _ _ _ hdp]
          exact hk
        · rw [getD_set_ne _ _ _ _ hid]
          have := getD_lt_of_mem_allIdx hp (by rw [List.length_set]; exact hi)
          rwa [getD_set_ne _ _ _ _ hid] at this
    have hgd : (p.set d k).getD d 0 = k := getD_set_self _ _ _ hdp
    have hI : I.data (p.set d k) = idx.data [k] := by
      rw [hIdata _ (by rw [hgd]; exact hk), hgd]
    refine List.mem_filter.mpr ⟨hmem, ?_⟩
    simp only [decide_eq_true_eq]
    rw [scatTarget, hI, hke, Int.floor_natCast, Int.toNat_natCast, List.set_set]
    exact set_getD_self _ _ hdp
  obtain ⟨k0, hk0, hke0⟩ := hex
  have hj0mem := hmemB k0 hk0 hke0
  have hstp := hstval p
  cases hfil : (allIdx src.shape).filter (fun j => scatTarget I d j = p) with
  | nil =>
      rw [hfil] at hj0mem
      cases hj0mem
  | cons j0 tl =>
      rw [hfil] at hstp
      rw [List.foldl_cons] at hstp
      have hstep0 : extStep better none (src.data j0) (j0.getD d 0) =
          some (src.data j0, j0.getD d 0) := rfl
      rw [hstep0] at hstp
      obtain ⟨w, a', hfoldres, hsrcd, hww, hall⟩ :=
        extFold_go better hirr hbt1 hbt2 (fun j => src.data j) (fun j => j.getD d 0)
          tl (src.data j0) (j0.getD d 0)
      rw [hfoldres] at hstp
      have hsrcj : ∃ j ∈ (allIdx src.shape).filter (fun j => scatTarget I d j = p),
          w = src.data j ∧ a' = j.getD d 0 := by
        rcases hsrcd with ⟨h1, h2⟩ | ⟨j', hj', h1, h2⟩
        · exact ⟨j0, by rw [hfil]; exact List.mem_cons_self _ _, h1, h2⟩
        · exact ⟨j', by rw [hfil]; exact List.mem_cons_of_mem _ hj', h1, h2⟩
      obtain ⟨jw, hjwmem, hw1, hw2⟩ := hsrcj
      have hjwf := List.mem_filter.mp hjwmem
      have hjtgt : scatTarget I d jw = p := by
        have := hjwf.2
        simpa using this
      obtain ⟨hjd, hje, hjset⟩ := hmemA jw hjwf.1 hjtgt
      refine ⟨jw.getD d 0, hjd, hje, ?_, ?_, ?_⟩
      · show (match st p with | some x => ((x.2 : Nat) : ℚ) | none => 0) = _
        rw [hstp, hw2]
      · show src.data (p.set d (jw.getD d 0)) =
          (match st p with | some x => x.1 | none => 0)
        rw [hstp, hjset, hw1]
      · intro k hk hke
        have hkmem := hmemB k hk hke
        rw [hfil] at hkmem
        show better (src.data (p.set d k))
          (match st p with | some x => x.1 | none => 0) = false
        rw [hstp]
        rcases List.mem_cons.mp hkmem with heq | hmemtl
        · rw [heq]
          exact hww
        · exact hall _ hmemtl

/-- C6: for the min and max reduction kinds, the reduction returns, besides
the per-group extremum value - which equals the true minimum/maximum over
the contributing rows - a companion integer buffer of the same shape
giving, per output slot, the source index of a row whose value equals that
extremum. -/
theorem scatter_minmax_correct (src idx : Tensor) (dim : Int) (d dsz : Nat)
    (hres : resolveDim dim src.shape.length = Except.ok d)
    (hsh : idx.shape = [src.shape.getD d 0])
    (hint : ∀ k, k < src.shape.getD d 0 →
      ∃ z : Int, idx.data [k] = (z : ℚ) ∧ 0 ≤ z ∧ z < (dsz : Int)) :
    (∃ tv ta, scatter_min src idx dim none (some dsz) = Except.ok (tv, ta) ∧
      tv.shape = src.shape.set d dsz ∧ ta.shape = tv.shape ∧
      ∀ p ∈ allIdx (src.shape.set d dsz),
        (∃ k, k < src.shape.getD d 0 ∧ idx.data [k] = ((p.getD d 0 : Nat) : ℚ)) →
        ∃ a, a < src.shape.getD d 0 ∧ idx.data [a] = ((p.getD d 0 : Nat) : ℚ) ∧
          ta.data p = ((a : Nat) : ℚ) ∧ src.data (p.set d a) = tv.data p ∧
          ∀ k, k < src.shape.getD d 0 → idx.data [k] = ((p.getD d 0 : Nat) : ℚ) →
            tv.data p ≤ src.data (p.set d k)) ∧
    (∃ tv ta, scatter_max src idx dim none (some dsz) = Except.ok (tv, ta) ∧
      tv.shape = src.shape.set d dsz ∧ ta.shape = tv.shape ∧
      ∀ p ∈ allIdx (src.shape.set d dsz),
        (∃ k, k < src.shape.getD d 0 ∧ idx.data [k] = ((p.getD d 0 : Nat) : ℚ)) →
        ∃ a, a < src.shape.getD d 0 ∧ idx.data [a] = ((p.getD d 0 : Nat) : ℚ) ∧
          ta.data p = ((a : Nat) : ℚ) ∧ src.data (p.set d a) = tv.data p ∧
          ∀ k, k < src.shape.getD d 0 → idx.data [k] = ((p.getD d 0 : Nat) : ℚ) →
            src.data (p.set d k) ≤ tv.data p) := by
  constructor
  · obtain ⟨tv, ta, hok, h1, h2, h3⟩ := scatterExtreme_rows (fun a b => decide (a < b))
      (fun w => by simp)
      (fun v w w' h1 h2 => by
        simp only [decide_eq_true_eq] at h1
        simp only [decide_eq_false_iff_not] at h2 ⊢
        intro hcon
        exact h2 (lt_trans h1 hcon))
      (fun u w w' h1 h2 => by
        simp only [decide_eq_false_iff_not] at h1 h2 ⊢
        intro hcon
        exact h1 (lt_of_lt_of_le hcon (not_lt.mp h2)))
      src idx dim d dsz hres hsh hint
    refine ⟨tv, ta, hok, h1, h2, ?_⟩
    intro p hp hex
    obtain ⟨a, ha1, ha2, ha3, ha4, ha5⟩ := h3 p hp hex
    refine ⟨a, ha1, ha2, ha3, ha4, ?_⟩
    intro k hk hke
    have hle := ha5 k hk hke
    rw [decide_eq_false_iff_not] at hle
    exact not_lt.mp hle
  · obtain ⟨tv, ta, hok, h1, h2, h3⟩ := scatterExtreme_rows (fun a b => decide (b < a))
      (fun w => by simp)
      (fun v w w' h1 h2 => by
        simp only [decide_eq_true_eq] at h1
        simp only [decide_eq_false_iff_not] at h2 ⊢
        intro hcon
        exact h2 (lt_trans hcon h1))
      (fun u w w' h1 h2 => by
        simp only [decide_eq_false_iff_not] at h1 h2 ⊢
        intro hcon
        exact h1 (lt_of_le_of_lt (not_lt.mp h2) hcon))
      src idx dim d dsz hres hsh hint
    refine ⟨tv, ta, hok, h1, h2, ?_⟩
    intro p hp hex
    obtain ⟨a, ha1, ha2, ha3, ha4, ha5⟩ := h3 p hp hex
    refine ⟨a, ha1, ha2, ha3, ha4, ?_⟩
    intro k hk hke
    have hle := ha5 k hk hke
    rw [decide_eq_false_iff_not] at hle
    exact not_lt.mp hle

/-- Witness: over the rows (1,2), (3,4), (5,6) with group index (0, 0, 1),
group 0 column 0 has minimum 1 (from row 0) and maximum 3 (from row 1). -/
theorem scatter_minmax_correct_witness :
    (∃ tv ta, scatter_min srcW1 idxW1 0 none (some 2) = Except.ok (tv, ta) ∧
      tv.data [0, 0] = 1) ∧
    (∃ tv ta, scatter_max srcW1 idxW1 0 none (some 2) = Except.ok (tv, ta) ∧
      tv.data [0, 0] = 3) := by
  obtain ⟨hmin, hmax⟩ := scatter_minmax_correct srcW1 idxW1 0 0 2
    rfl rfl
    (by
      intro k hk
      have hk3 : k < 3 := hk
      interval_cases k
      · exact ⟨0, by norm_num [idxW1, vec], by norm_num, by norm_num⟩
      · exact ⟨0, by norm_num [idxW1, vec], by norm_num, by norm_num⟩
      · exact ⟨1, by norm_num [idxW1, vec], by norm_num, by norm_num⟩)
  constructor
  · obtain ⟨tv, ta, hok, _, _, h3⟩ := hmin
    obtain ⟨a, ha1, ha2, ha3, ha4, ha5⟩ := h3 [0, 0] (by decide)
      ⟨0, by norm_num [srcW1, mat], by norm_num [idxW1, vec]⟩
    refine ⟨tv, ta, hok, ?_⟩
    have ha3' : a < 3 := ha1
    have h00 : tv.data [0, 0] ≤ 1 := by
      have := ha5 0 (by norm_num [srcW1, mat]) (by norm_num [idxW1, vec])
      rwa [show srcW1.data ([0, 0].set 0 0) = 1 from by norm_num [srcW1, mat]] at this
    interval_cases a
    · rw [← ha4]
      norm_num [srcW1, mat]
    · exfalso
      rw [show srcW1.data ([0, 0].set 0 1) = 3 from by norm_num [srcW1, mat]] at ha4
      rw [← ha4] at h00
      norm_num at h00
    · exfalso
      norm_num [idxW1, vec] at ha2
  · obtain ⟨tv, ta, hok, _, _, h3⟩ := hmax
    obtain ⟨a, ha1, ha2, ha3, ha4, ha5⟩ := h3 [0, 0] (by decide)
      ⟨0, by norm_num [srcW1, mat], by norm_num [idxW1, vec]⟩
    refine ⟨tv, ta, hok, ?_⟩
    have ha3' : a < 3 := ha1
    have h00 : (3 : ℚ) ≤ tv.data [0, 0] := by
      have := ha5 1 (by norm_num [srcW1, mat]) (by norm_num [idxW1, vec])
      rwa [show srcW1.data ([0, 0].set 0 1) = 3 from by norm_num [srcW1, mat]] at this
    interval_cases a
    · exfalso
      rw [show srcW1.data ([0, 0].set 0 0) = 1 from by norm_num [srcW1, mat]] at ha4
      rw [← ha4] at h00
      norm_num at h00
    · rw [← ha4]
      norm_num [srcW1, mat]
    · exfalso
      norm_num [idxW1, vec] at ha2

/-- C5: an unrecognized reduction kind fails at layer construction time
(the `MessagePassing` base-class validation, modelled from the spec), not
at forward-pass call time - no layer value exists afterwards to run a
forward pass with - and the `scatter` dispatcher itself also rejects the
kind with a ValueError. -/
theorem config_error_at_construction (aggr : String)
    (hbad : recognizedReduce aggr = false) :
    (∀ emb_dim edge_dim, MPNNLayer_init emb_dim edge_dim aggr =
      Except.error "ConfigError: unrecognized aggregation") ∧
    (∀ src idx dim out dim_size,
      scatter src idx dim out dim_size aggr = Except.error "ValueError") := by
  have hall : ¬ aggr = "sum" ∧ ¬ aggr = "add" ∧ ¬ aggr = "mul" ∧
      ¬ aggr = "mean" ∧ ¬ aggr = "min" ∧ ¬ aggr = "max" := by
    unfold recognizedReduce at hbad
    simp only [Bool.or_eq_false_iff, decide_eq_false_iff_not] at hbad
    exact ⟨hbad.1.1.1.1.1, hbad.1.1.1.1.2, hbad.1.1.1.2, hbad.1.1.2, hbad.1.2, hbad.2⟩
  constructor
  · intro e d
    unfold MPNNLayer_init
    rw [if_neg (by simp [hbad])]
  · intro src idx dim out dsz
    unfold scatter
    rw [if_neg (by rintro (h | h); exact hall.1 h; exact hall.2.1 h)]
    rw [if_neg hall.2.2.1, if_neg hall.2.2.2.1, if_neg hall.2.2.2.2.1,
      if_neg hall.2.2.2.2.2]

/-- Witness: the reduction kind "median" is rejected at layer construction
and by the scatter dispatcher. -/
theorem config_error_at_construction_witness :
    MPNNLayer_init 4 2 "median" =
      Except.error "ConfigError: unrecognized aggregation" ∧
    scatter srcW1 idxW1 0 none none "median" = Except.error "ValueError" := by
  have h := config_error_at_construction "median" (by decide)
  exact ⟨h.1 4 2, h.2 srcW1 idxW1 0 none none⟩

theorem buildConvs_ok (e d : Nat) : ∀ n, ∃ l, buildConvs e d n = Except.ok l
  | 0 => ⟨[], rfl⟩
  | n + 1 => by
      obtain ⟨l, hl⟩ := buildConvs_ok e d n
      refine ⟨(MPNNLayerSt.mk e "add"
        (zeroLinear (2 * e + d) e) (zeroLinear e e)
        (zeroLinear (2 * e) e) (zeroLinear e e)) :: l, ?_⟩
      unfold buildConvs
      rw [show MPNNLayer_init e d "add" = Except.ok (MPNNLayerSt.mk e "add"
        (zeroLinear (2 * e + d) e) (zeroLinear e e)
        (zeroLinear (2 * e) e) (zeroLinear e e)) from rfl, ok_bind, hl, ok_bind]

/-- C7 counterexample: `MPNNModel.__init__` succeeds on a (3, 2)
edge-attribute buffer paired with a (2, 2) edge index - 3 attribute rows
against 2 edges - so the row-count mismatch is not rejected at model
construction time. -/
theorem mpnn_init_nocheck_counterexample :
    eaW7.shape.getD 0 0 = 3 ∧ eiW7.shape.getD 1 0 = 2 ∧
    exOk (MPNNModel_init eiW7 eaW7 2 2 4 1) = true := by
  refine ⟨rfl, rfl, ?_⟩
  decide

/-- C7 amended: no construction-time check relates the edge-attribute row
count to the edge-index column count: `MPNNModel.__init__` succeeds for
every pair of buffers whose edge-attribute rank is at least 2, mismatched
or not; the mismatch can only surface later, during a forward pass, when
per-edge buffers of differing row counts are concatenated. -/
theorem mpnn_init_nocheck_amended (edge_index edge_attr : Tensor)
    (in_dim num_layers emb_dim out_dim : Nat)
    (hrank : 2 ≤ edge_attr.shape.length) :
    exOk (MPNNModel_init edge_index edge_attr in_dim num_layers emb_dim out_dim) =
      true := by
  unfold MPNNModel_init
  rw [if_pos hrank, ok_bind]
  simp only []
  obtain ⟨l, hl⟩ := buildConvs_ok emb_dim (edge_attr.shape.getD 1 0) num_layers
  rw [hl, ok_bind]
  rfl

/-- Witness: construction succeeds on the concrete mismatched pair - the
(2, 2) edge index with the (3, 2) edge-attribute buffer. -/
theorem mpnn_init_nocheck_amended_witness :
    exOk (MPNNModel_init eiW7 eaW7 2 2 4 1) = true :=
  mpnn_init_nocheck_amended eiW7 eaW7 2 2 4 1 (by norm_num [eaW7])

theorem exmap_ok {α β : Type} (a : α) (f : α → β) :
    (Except.ok a : Except String α).map f = Except.ok (f a) := rfl

theorem exmap_err {α β : Type} (e : String) (f : α → β) :
    (Except.error e : Except String α).map f = Except.error e := rfl

theorem linear_apply_shape (l : LinearM) (x : Tensor) (n : Nat)
    (hx : x.shape = [n, l.win]) :
    ∃ y, l.apply x = Except.ok y ∧ y.shape = [n, l.wout] ∧ y.fl = x.fl := by
  refine ⟨{ shape := [n, l.wout], fl := x.fl,
            data := fun p =>
              (∑ i ∈ Finset.range l.win,
                l.w (p.getD 1 0) i * x.data [p.getD 0 0, i]) +
              l.b (p.getD 1 0) }, ?_, rfl, rfl⟩
  unfold LinearM.apply
  rw [hx]
  dsimp only
  rw [if_pos rfl]

theorem foldl_convs_preserve (m : MPNNModelSt) (sh : List Nat)
    (hcv : convsPreserve m sh) :
    ∀ (cs : List MPNNLayerSt), (∀ c ∈ cs, c ∈ m.convs) →
      ∀ h : Tensor, h.shape = sh →
      ∃ h2, cs.foldlM
          (fun h c => MPNNLayer_forward c m.edge_index m.edge_attr h) h =
        Except.ok h2 ∧ h2.shape = sh
  | [], _, h, hh => ⟨h, rfl, hh⟩
  | c :: cs, hsub, h, hh => by
      obtain ⟨h1, hc1, hs1⟩ := hcv c (hsub c (List.mem_cons_self _ _)) h hh
      obtain ⟨h2, hc2, hs2⟩ := foldl_convs_preserve m sh hcv cs
        (fun c' hc' => hsub c' (List.mem_cons_of_mem _ hc')) h1 hs1
      refine ⟨h2, ?_, hs2⟩
      rw [List.foldlM_cons, hc1, ok_bind]
      exact hc2

theorem squeezeLast_shape {t : Tensor} {n : Nat} (h : t.shape = [n, 1]) :
    (squeezeLast t).shape = [n] := by
  unfold squeezeLast
  split
  · show t.shape.dropLast = [n]
    rw [h]
    rfl
  · next hcond =>
      exfalso
      apply hcond
      rw [h]
      rfl

/-- C9: the model forward pass is the composition spec section 4.4
describes - input projection of two linear+ReLU stages, the Graph Layers
folded in sequence over the fixed edge structure, an output projection of
two linear stages with a ReLU only after the first, then removal of the
trailing singleton feature axis - so for a batch of `n` node-feature rows
and a 1-wide prediction head, `forward` returns the projection output with
one fewer trailing axis: a rank-1 buffer with one scalar per node. -/
theorem mpnn_forward_composition (m : MPNNModelSt) (x : Tensor) (n : Nat)
    (hx : x.shape = [n, m.lin_in1.win])
    (h12 : m.lin_in2.win = m.lin_in1.wout)
    (hcv : convsPreserve m [n, m.lin_in2.wout])
    (hp1 : m.lin_pred1.win = m.lin_in2.wout)
    (hp2 : m.lin_pred2.win = m.lin_pred1.wout)
    (hout : m.lin_pred2.wout = 1) :
    MPNNModel_forward m x = modelCompositionSpec m x ∧
    ∃ u, MPNNModel_projOut m x = Except.ok u ∧ u.shape = [n, 1] ∧
      MPNNModel_forward m x = Except.ok (squeezeLast u) ∧
      (squeezeLast u).shape = [n] := by
  constructor
  · unfold MPNNModel_forward MPNNModel_projOut modelCompositionSpec
    cases h1 : m.lin_in1.apply x with
    | error e => simp only [h1, err_bind, exmap_err]
    | ok a =>
        simp only [h1, ok_bind]
        cases h2 : m.lin_in2.apply (relu a) with
        | error e => simp only [h2, err_bind, exmap_err]
        | ok b =>
            simp only [h2, ok_bind]
            cases h3 : m.convs.foldlM
                (fun h c => MPNNLayer_forward c m.edge_index m.edge_attr h)
                (relu b) with
            | error e => simp only [h3, err_bind, exmap_err]
            | ok c =>
                simp only [h3, ok_bind]
                cases h4 : m.lin_pred1.apply c with
                | error e => simp only [h4, err_bind, exmap_err]
                | ok dd =>
                    simp only [h4, ok_bind]
                    cases h5 : m.lin_pred2.apply (relu dd) with
                    | error e => simp only [h5, err_bind, exmap_err]
                    | ok u => simp only [h5, ok_bind, exmap_ok]
  · obtain ⟨y1, hy1, hs1, _⟩ := linear_apply_shape m.lin_in1 x n hx
    obtain ⟨y2, hy2, hs2, _⟩ := linear_apply_shape m.lin_in2 (relu y1) n
      (by show y1.shape = _; rw [hs1, h12])
    obtain ⟨y3, hy3, hs3⟩ := foldl_convs_preserve m [n, m.lin_in2.wout] hcv
      m.convs (fun c hc => hc) (relu y2) (by show y2.shape = _; exact hs2)
    obtain ⟨y4, hy4, hs4, _⟩ := linear_apply_shape m.lin_pred1 y3 n
      (by rw [hs3, hp1])
    obtain ⟨u, hu, hsu, _⟩ := linear_apply_shape m.lin_pred2 (relu y4) n
      (by show y4.shape = _; rw [hs4, hp2])
    have hproj : MPNNModel_projOut m x = Except.ok u := by
      unfold MPNNModel_projOut
      rw [hy1, ok_bind, hy2, ok_bind, hy3, ok_bind, hy4, ok_bind, hu, ok_bind]
    have hu1 : u.shape = [n, 1] := by rw [hsu, hout]
    refine ⟨u, hproj, hu1, ?_, squeezeLast_shape hu1⟩
    unfold MPNNModel_forward
    rw [hproj, exmap_ok]

/-- Witness: a model with a 2-wide input projection, all hidden widths 1,
no message-passing layers and a 1-wide head maps a (2, 2) node-feature
buffer to a rank-1 buffer with one scalar for each of the 2 nodes. -/
theorem mpnn_forward_composition_witness :
    ∃ t u, MPNNModel_forward mW9 xW9 = Except.ok t ∧
      MPNNModel_projOut mW9 xW9 = Except.ok u ∧ u.shape = [2, 1] ∧
      t.shape = [2] := by
  obtain ⟨_, ⟨u, hproj, hu1, hfwd, hsq⟩⟩ := mpnn_forward_composition mW9 xW9 2
    rfl rfl (fun c hc => absurd hc (by simp [mW9])) rfl rfl rfl
  exact ⟨squeezeLast u, u, hfwd, hproj, hu1, hsq⟩
